import Mathlib

/-!
Shallow embedding of `src/ellipse.py` (multifocal ellipse drawing).

Geometry is modelled over the real numbers: a Python float value becomes a
real number, `math.sqrt` becomes `Real.sqrt`, and `np.sign` becomes
`Real.sign`.  Division by zero follows Lean's `x / 0 = 0` convention; every
place where the Python code could divide by zero is treated explicitly in
the theorems below.  The drawing side effects (`dwg.add`, file output) carry
no geometric information and are dropped; the emitted fragments are collected
in a list instead.  The two unbounded `while` loops of `draw_with_slack` are
modelled with an explicit fuel parameter: `none` means the loop did not
finish within the given fuel.
-/

noncomputable section

/-- A 2D point (`ColouredPoint` without its colour tag, which geometry ignores). -/
abbrev Pt := ℝ × ℝ

/-- `distance(P1, P2) = np.linalg.norm(P2 - P1)`. -/
def distance (P1 P2 : Pt) : ℝ :=
  Real.sqrt ((P2.1 - P1.1) ^ 2 + (P2.2 - P1.2) ^ 2)

/-- Planar dot product, `np.dot` on two 2-vectors. -/
def dotp (u v : Pt) : ℝ := u.1 * v.1 + u.2 * v.2

/-- Planar cross product: `np.cross` on two 2-vectors returns this scalar. -/
def crossp (u v : Pt) : ℝ := u.1 * v.2 - u.2 * v.1

/-- `three_point_cosine(P1, P0, P2)`:
`np.dot(P1-P0, P2-P0) / (distance(P1,P0) * distance(P2,P0))`. -/
def three_point_cosine (P1 P0 P2 : Pt) : ℝ :=
  dotp (P1 - P0) (P2 - P0) / (distance P1 P0 * distance P2 P0)

/-- `clockwiseness_of_points(P1, P2, P3) =
np.sign(np.linalg.norm(np.cross(P2-P1, P3-P1)))`.
`np.cross` of two 2-vectors is the scalar `crossp`, and `np.linalg.norm` of a
scalar is its absolute value, so the source computes the sign of `|cross|`. -/
def clockwiseness_of_points (P1 P2 P3 : Pt) : ℝ :=
  Real.sign |crossp (P2 - P1) (P3 - P1)|

/-- The sine computed inside `turn_and_scale`:
`sin_f = math.sqrt(abs(1.0 - cos_f**2))`. -/
def sin_from_cos (cos_f : ℝ) : ℝ := Real.sqrt |1 - cos_f ^ 2|

/-- `turn_and_scale(Z, D, cos_f, rho)`: the unit vector `U = (D-Z)/|D-Z|` is
multiplied on the right by the matrix `[[cos, -sin], [sin, cos]]`, scaled by
`rho` and translated by `Z` (componentwise transcription of the numpy code). -/
def turn_and_scale (Z D : Pt) (cos_f rho : ℝ) : Pt :=
  let sin_f := sin_from_cos cos_f
  let dZD := distance Z D
  let U : Pt := ((D.1 - Z.1) / dZD, (D.2 - Z.2) / dZD)
  (rho * (U.1 * cos_f + U.2 * sin_f) + Z.1,
   rho * (-U.1 * sin_f + U.2 * cos_f) + Z.2)

/-- The stored fields of `Ellipse.__init__`. -/
structure Ellipse where
  F1 : Pt
  F2 : Pt
  c : ℝ
  a : ℝ
  b : ℝ

/-- `Ellipse(F1, F2, d)`: `c = distance(F1,F2)/2`, `a = d/2`,
`b = math.sqrt(a**2 - c**2)`. -/
def Ellipse.mk' (F1 F2 : Pt) (d : ℝ) : Ellipse :=
  { F1 := F1
    F2 := F2
    c := distance F1 F2 / 2
    a := d / 2
    b := Real.sqrt ((d / 2) ^ 2 - (distance F1 F2 / 2) ^ 2) }

/-- `math.sqrt` raises `ValueError` exactly on a negative argument, so
`Ellipse.__init__(F1, F2, d)` raises exactly when `a^2 - c^2 < 0`. -/
def ellipse_init_raises (F1 F2 : Pt) (d : ℝ) : Prop :=
  (d / 2) ^ 2 - (distance F1 F2 / 2) ^ 2 < 0

instance (F1 F2 : Pt) (d : ℝ) : Decidable (ellipse_init_raises F1 F2 d) := by
  unfold ellipse_init_raises
  infer_instance

/-- `Ellipse.__init__(F1, F2, d)` completes without an exception exactly when
the argument of `math.sqrt` is nonnegative, i.e. `a^2 - c^2 ≥ 0`. -/
def ellipse_init_ok (F1 F2 : Pt) (d : ℝ) : Prop :=
  0 ≤ (d / 2) ^ 2 - (distance F1 F2 / 2) ^ 2

/-- `Ellipse.point_on_the_ellipse(cos_f, focus_sign)`:
`rho = b**2 / (a + focus_sign*c*cos_f)`, `(Z, D) = (F1, F2)` if
`focus_sign == -1` else `(F2, F1)`, then
`turn_and_scale(Z, D, cos_f, -focus_sign*rho)`. -/
def Ellipse.point_on_the_ellipse (e : Ellipse) (cos_f : ℝ) (focus_sign : ℝ) : Pt :=
  let rho := e.b ^ 2 / (e.a + focus_sign * e.c * cos_f)
  let ZD : Pt × Pt := if focus_sign = -1 then (e.F1, e.F2) else (e.F2, e.F1)
  turn_and_scale ZD.1 ZD.2 cos_f (-focus_sign * rho)

/-- List indexing `P[i]` for `0 ≤ i < len(P)` (out-of-range gives a junk
default; the walk only indexes within range). -/
def getP (P : List Pt) (i : ℕ) : Pt := P.getD i (0, 0)

/-- Python's `P[i-1]` under cyclic indexing: `i - 1` for `i ≥ 1`, and the last
element for `i = 0` (Python index `-1`). -/
def prevIdx (P : List Pt) (i : ℕ) : ℕ := (i + P.length - 1) % P.length

/-- `self.dist_2_prev[i] = distance(P[i], P[i-1])` cached by
`MultiEllipse.__init__`. -/
def dist_2_prev (P : List Pt) (i : ℕ) : ℝ := distance (getP P i) (getP P (prevIdx P i))

/-- One output arc of `draw_with_slack`: the component ellipse, the two limits
`A`, `B`, and the tick parent focus (`show_tickmarks=True` is modelled). -/
structure Fragment where
  e : Ellipse
  A : Pt
  B : Pt
  tick : Pt

/-- The transient walk state of `draw_with_slack`: trailing index `l`, the
`l_next` computed by the last iteration (used by the loop condition), leading
index `r`, accumulated string length `d` and previous endpoint `A`. -/
structure WalkState where
  l : ℕ
  l_next : ℕ
  r : ℕ
  d : ℝ
  A : Pt

/-- The bootstrap loop of `draw_with_slack` (`l` is fixed to `0` throughout):
repeatedly `d += dist_2_prev[r]`, build the ellipse, compute the candidate
left limit `A`, and stop as soon as
`clockwiseness_of_points(A, P[r], P[r_next]) == 1`, else advance `r`.
Returns `(r, d, A)` on success, `none` when the fuel runs out. -/
def bootstrap (P : List Pt) : ℕ → ℕ → ℝ → Option (ℕ × ℝ × Pt)
  | 0, _, _ => none
  | fuel + 1, r, d =>
    let n := P.length
    let d' := d + dist_2_prev P r
    let r_next := (r + 1) % n
    let e := Ellipse.mk' (getP P 0) (getP P r) d'
    let cos_for_A := -(three_point_cosine (getP P r) (getP P 0) (getP P (prevIdx P 0)))
    let A := e.point_on_the_ellipse cos_for_A (-1)
    if clockwiseness_of_points A (getP P r) (getP P r_next) = 1 then some (r, d', A)
    else bootstrap P fuel r_next d'

/-- The bootstrap loop with the exception path made explicit: building the
ellipse calls `math.sqrt(a**2 - c**2)`, which raises `ValueError` when its
argument is negative (`ellipse_init_raises`).  `some (Except.error ())` means
the Python loop terminated by raising `ValueError`; `some (Except.ok ...)`
means it exited normally; `none` means it was still looping when the fuel ran
out. -/
def bootstrapE (P : List Pt) : ℕ → ℕ → ℝ → Option (Except Unit (ℕ × ℝ × Pt))
  | 0, _, _ => none
  | fuel + 1, r, d =>
    let n := P.length
    let d' := d + dist_2_prev P r
    let r_next := (r + 1) % n
    if ellipse_init_raises (getP P 0) (getP P r) d' then some (Except.error ())
    else
      let e := Ellipse.mk' (getP P 0) (getP P r) d'
      let cos_for_A := -(three_point_cosine (getP P r) (getP P 0) (getP P (prevIdx P 0)))
      let A := e.point_on_the_ellipse cos_for_A (-1)
      if clockwiseness_of_points A (getP P r) (getP P r_next) = 1 then
        some (Except.ok (r, d', A))
      else bootstrapE P fuel r_next d'

/-- One iteration of the main walk of `draw_with_slack`: build the ellipse,
compute the right-limit candidates `B` (from focus `P[r]`) and `A2` (from
focus `P[l]`), compare `cos_for_A2` with `cos_of_B_rel_F1`, and update the
state accordingly, emitting one fragment. -/
def walkStep (P : List Pt) (s : WalkState) : Fragment × WalkState :=
  let n := P.length
  let e := Ellipse.mk' (getP P s.l) (getP P s.r) s.d
  let l_next := (s.l + 1) % n
  let r_next := (s.r + 1) % n
  let cos_for_B := three_point_cosine (getP P s.l) (getP P s.r) (getP P r_next)
  let B := e.point_on_the_ellipse cos_for_B 1
  let cos_of_B_rel_F1 := three_point_cosine B (getP P s.l) (getP P s.r)
  let cos_for_A2 := three_point_cosine (getP P s.r) (getP P s.l) (getP P l_next)
  let A2 := e.point_on_the_ellipse cos_for_A2 (-1)
  if cos_for_A2 < cos_of_B_rel_F1 then
    ({ e := e, A := s.A, B := A2, tick := getP P l_next },
     { l := l_next, l_next := l_next, r := s.r, d := s.d - dist_2_prev P l_next, A := A2 })
  else
    ({ e := e, A := s.A, B := B, tick := getP P s.r },
     { l := s.l, l_next := l_next, r := r_next, d := s.d + dist_2_prev P r_next, A := B })

/-- The loop condition `while l != 0 or l_next != 0` is false, i.e. the walk
has closed. -/
def walkDone (s : WalkState) : Prop := s.l = 0 ∧ s.l_next = 0

instance (s : WalkState) : Decidable (walkDone s) := by
  unfold walkDone
  infer_instance

/-- The main walk loop of `draw_with_slack`, collecting the emitted fragments;
`none` when the fuel runs out before the loop condition turns false. -/
def walkLoop (P : List Pt) : ℕ → WalkState → List Fragment → Option (List Fragment)
  | 0, s, acc => if walkDone s then some acc else none
  | fuel + 1, s, acc =>
    if walkDone s then some acc
    else
      let fs := walkStep P s
      walkLoop P fuel fs.2 (acc ++ [fs.1])

/-- `MultiEllipse.draw_with_slack(slack)`: bootstrap from `l = 0`, `l_next = 1`,
`r = 1`, `d = slack`, then run the main walk; returns the ordered fragment
list. -/
def draw_with_slack (P : List Pt) (slack : ℝ) (fuel : ℕ) : Option (List Fragment) :=
  match bootstrap P fuel 1 slack with
  | none => none
  | some (r, d, A) => walkLoop P fuel { l := 0, l_next := 1, r := r, d := d, A := A } []

/-- `draw_with_slack` with the bootstrap's `ValueError` path made explicit:
`some (Except.error ())` means the Python call terminated by raising
`ValueError` from `math.sqrt` in `Ellipse.__init__` during the bootstrap,
`some (Except.ok fragments)` a normal return, `none` that it was still
looping when the fuel ran out. -/
def draw_with_slackE (P : List Pt) (slack : ℝ) (fuel : ℕ) :
    Option (Except Unit (List Fragment)) :=
  match bootstrapE P fuel 1 slack with
  | none => none
  | some (Except.error e) => some (Except.error e)
  | some (Except.ok (r, d, A)) =>
      Option.map Except.ok (walkLoop P fuel { l := 0, l_next := 1, r := r, d := d, A := A } [])

/-- Consecutive emitted fragments share an endpoint: `fragment[i+1].A =
fragment[i].B` for every adjacent pair of the list. -/
def chained (fr : List Fragment) : Prop :=
  ∀ i, (h : i + 1 < fr.length) →
    (fr.get ⟨i + 1, h⟩).A = (fr.get ⟨i, Nat.lt_of_succ_lt h⟩).B

/-- The sum of the cached edge lengths over the cyclic window from `l`
(exclusive) forward to `r` (inclusive). -/
def windowSum (P : List Pt) (l r : ℕ) : ℝ :=
  ∑ k ∈ Finset.range ((r + P.length - l) % P.length), dist_2_prev P ((l + 1 + k) % P.length)

/-- The computation neither returns nor raises, whatever fuel it is given:
the Python original loops forever on this input. -/
def neverReturnsE (P : List Pt) (slack : ℝ) : Prop :=
  ∀ fuel, draw_with_slackE P slack fuel = none

/-- The three foci of the spec's scenario A (the `create_drawings` example
`[P1, P2, P4]`): `(400,500)`, `(600,400)`, `(500,700)`. -/
def scenarioA : List Pt := [(400, 500), (600, 400), (500, 700)]

/-- An arbitrary fixed fragment, used as a placeholder in arguments where only
the fragment count matters. -/
def anyFragment : Fragment :=
  { e := Ellipse.mk' ((0 : ℝ), (0 : ℝ)) ((0 : ℝ), (0 : ℝ)) 0
    A := ((0 : ℝ), (0 : ℝ))
    B := ((0 : ℝ), (0 : ℝ))
    tick := ((0 : ℝ), (0 : ℝ)) }

end

/-! ### Basic facts about the vector primitives -/

theorem distance_nonneg (P Q : Pt) : 0 ≤ distance P Q :=
  Real.sqrt_nonneg _

theorem distance_sq (P Q : Pt) :
    distance P Q ^ 2 = (Q.1 - P.1) ^ 2 + (Q.2 - P.2) ^ 2 :=
  Real.sq_sqrt (by positivity)

theorem distance_self (P : Pt) : distance P P = 0 := by
  simp [distance]

theorem distance_comm (P Q : Pt) : distance P Q = distance Q P := by
  unfold distance
  ring_nf

/-- Cauchy-Schwarz in the plane, squared form. -/
theorem dotp_sq_le (u v : Pt) : dotp u v ^ 2 ≤ (u.1 ^ 2 + u.2 ^ 2) * (v.1 ^ 2 + v.2 ^ 2) := by
  have h : 0 ≤ (u.1 * v.2 - u.2 * v.1) ^ 2 := sq_nonneg _
  unfold dotp
  nlinarith [h]

/-- `three_point_cosine` never exceeds `1` (with the `x / 0 = 0` convention at
degenerate inputs). -/
theorem three_point_cosine_le_one (P1 P0 P2 : Pt) : three_point_cosine P1 P0 P2 ≤ 1 := by
  unfold three_point_cosine
  rcases eq_or_lt_of_le (mul_nonneg (distance_nonneg P1 P0) (distance_nonneg P2 P0)) with h | h
  · rw [← h, div_zero]
    norm_num
  · rw [div_le_one h]
    have hsq : dotp (P1 - P0) (P2 - P0) ^ 2 ≤ (distance P1 P0 * distance P2 P0) ^ 2 := by
      have := dotp_sq_le (P1 - P0) (P2 - P0)
      have e1 := distance_sq P0 P1
      have e2 := distance_sq P0 P2
      have c1 : distance P1 P0 = distance P0 P1 := distance_comm _ _
      have c2 : distance P2 P0 = distance P0 P2 := distance_comm _ _
      rw [c1, c2]
      simp only [Prod.fst_sub, Prod.snd_sub] at this
      nlinarith [this]
    nlinarith [hsq, h]

/-- `three_point_cosine` is at least `-1`. -/
theorem neg_one_le_three_point_cosine (P1 P0 P2 : Pt) :
    -1 ≤ three_point_cosine P1 P0 P2 := by
  unfold three_point_cosine
  rcases eq_or_lt_of_le (mul_nonneg (distance_nonneg P1 P0) (distance_nonneg P2 P0)) with h | h
  · rw [← h, div_zero]
    norm_num
  · rw [le_div_iff h]
    have hsq : dotp (P1 - P0) (P2 - P0) ^ 2 ≤ (distance P1 P0 * distance P2 P0) ^ 2 := by
      have := dotp_sq_le (P1 - P0) (P2 - P0)
      have e1 := distance_sq P0 P1
      have e2 := distance_sq P0 P2
      have c1 : distance P1 P0 = distance P0 P1 := distance_comm _ _
      have c2 : distance P2 P0 = distance P0 P2 := distance_comm _ _
      rw [c1, c2]
      simp only [Prod.fst_sub, Prod.snd_sub] at this
      nlinarith [this]
    nlinarith [hsq, h]

/-- Rotating a unit vector by an angle with unit `(c, s)` preserves the norm:
pure algebra behind `turn_and_scale`. -/
theorem rot_alg_norm (u1 u2 c s rho : ℝ) (hU : u1 ^ 2 + u2 ^ 2 = 1)
    (hcs : c ^ 2 + s ^ 2 = 1) :
    (rho * (u1 * c + u2 * s)) ^ 2 + (rho * (-u1 * s + u2 * c)) ^ 2 = rho ^ 2 := by
  linear_combination (rho ^ 2 * (c ^ 2 + s ^ 2)) * hU + rho ^ 2 * hcs

/-- Squared distance from the rotated-and-scaled point to the tip of the
reference vector: pure algebra behind `turn_and_scale`. -/
theorem rot_alg_ref (u1 u2 c s rho q : ℝ) (hU : u1 ^ 2 + u2 ^ 2 = 1)
    (hcs : c ^ 2 + s ^ 2 = 1) :
    (q * u1 - rho * (u1 * c + u2 * s)) ^ 2 + (q * u2 - rho * (-u1 * s + u2 * c)) ^ 2 =
      rho ^ 2 - 2 * rho * q * c + q ^ 2 := by
  linear_combination (q ^ 2 - 2 * q * rho * c + rho ^ 2 * (c ^ 2 + s ^ 2)) * hU + rho ^ 2 * hcs

/-- Dot product of the rotated-and-scaled vector with the reference vector:
pure algebra behind `turn_and_scale`. -/
theorem rot_alg_dot (u1 u2 c s rho q : ℝ) (hU : u1 ^ 2 + u2 ^ 2 = 1) :
    rho * (u1 * c + u2 * s) * (q * u1) + rho * (-u1 * s + u2 * c) * (q * u2) =
      rho * q * c := by
  linear_combination (rho * q * c) * hU

/-- For `|cos_f| ≤ 1` the computed sine satisfies `sin² = 1 - cos²`. -/
theorem sin_from_cos_sq (cos_f : ℝ) (hc : |cos_f| ≤ 1) :
    sin_from_cos cos_f ^ 2 = 1 - cos_f ^ 2 := by
  unfold sin_from_cos
  rw [Real.sq_sqrt (abs_nonneg _), abs_of_nonneg]
  nlinarith [sq_abs cos_f, hc, abs_nonneg cos_f]

/-- The two components of `turn_and_scale`, unfolded. -/
theorem turn_and_scale_fst (Z D : Pt) (cos_f rho : ℝ) :
    (turn_and_scale Z D cos_f rho).1 =
      rho * ((D.1 - Z.1) / distance Z D * cos_f +
             (D.2 - Z.2) / distance Z D * sin_from_cos cos_f) + Z.1 :=
  rfl

theorem turn_and_scale_snd (Z D : Pt) (cos_f rho : ℝ) :
    (turn_and_scale Z D cos_f rho).2 =
      rho * (-((D.1 - Z.1) / distance Z D) * sin_from_cos cos_f +
             (D.2 - Z.2) / distance Z D * cos_f) + Z.2 :=
  rfl

/-- The unit vector used by `turn_and_scale` really has norm one when
`Z ≠ D`. -/
theorem unit_vec_sq (Z D : Pt) (hZD : 0 < distance Z D) :
    ((D.1 - Z.1) / distance Z D) ^ 2 + ((D.2 - Z.2) / distance Z D) ^ 2 = 1 := by
  have h := distance_sq Z D
  have hne : distance Z D ≠ 0 := ne_of_gt hZD
  field_simp
  linarith [h]

/-- Distance from `turn_and_scale Z D cos_f rho` back to the centre `Z` is
`|rho|`, whenever `|cos_f| ≤ 1` and `Z ≠ D`. -/
theorem turn_and_scale_dist_center (Z D : Pt) (cos_f rho : ℝ)
    (hc : |cos_f| ≤ 1) (hZD : 0 < distance Z D) :
    distance (turn_and_scale Z D cos_f rho) Z = |rho| := by
  have hsin := sin_from_cos_sq cos_f hc
  have hcs : cos_f ^ 2 + sin_from_cos cos_f ^ 2 = 1 := by linarith
  have key := rot_alg_norm ((D.1 - Z.1) / distance Z D) ((D.2 - Z.2) / distance Z D)
    cos_f (sin_from_cos cos_f) rho (unit_vec_sq Z D hZD) hcs
  have hsq : distance (turn_and_scale Z D cos_f rho) Z ^ 2 = rho ^ 2 := by
    rw [distance_sq, turn_and_scale_fst, turn_and_scale_snd]
    linear_combination key
  calc distance (turn_and_scale Z D cos_f rho) Z
      = Real.sqrt (distance (turn_and_scale Z D cos_f rho) Z ^ 2) :=
        (Real.sqrt_sq (distance_nonneg _ _)).symm
    _ = Real.sqrt (rho ^ 2) := by rw [hsq]
    _ = |rho| := Real.sqrt_sq_eq_abs rho

/-- Squared distance from `turn_and_scale Z D cos_f rho` to the reference
point `D`, whenever `|cos_f| ≤ 1` and `Z ≠ D`. -/
theorem turn_and_scale_dist_ref_sq (Z D : Pt) (cos_f rho : ℝ)
    (hc : |cos_f| ≤ 1) (hZD : 0 < distance Z D) :
    distance (turn_and_scale Z D cos_f rho) D ^ 2 =
      rho ^ 2 - 2 * rho * distance Z D * cos_f + distance Z D ^ 2 := by
  have hsin := sin_from_cos_sq cos_f hc
  have hcs : cos_f ^ 2 + sin_from_cos cos_f ^ 2 = 1 := by linarith
  have hne : distance Z D ≠ 0 := ne_of_gt hZD
  have key := rot_alg_ref ((D.1 - Z.1) / distance Z D) ((D.2 - Z.2) / distance Z D)
    cos_f (sin_from_cos cos_f) rho (distance Z D) (unit_vec_sq Z D hZD) hcs
  have hd1 : distance Z D * ((D.1 - Z.1) / distance Z D) = D.1 - Z.1 := by
    field_simp
  have hd2 : distance Z D * ((D.2 - Z.2) / distance Z D) = D.2 - Z.2 := by
    field_simp
  rw [distance_sq, turn_and_scale_fst, turn_and_scale_snd]
  rw [hd1, hd2] at key
  linear_combination key

/-- `point_on_the_ellipse` with `focus_sign = -1` measures from `F1` toward
`F2`. -/
theorem point_on_the_ellipse_neg1 (e : Ellipse) (cos_f : ℝ) :
    e.point_on_the_ellipse cos_f (-1) =
      turn_and_scale e.F1 e.F2 cos_f
        (-(-1) * (e.b ^ 2 / (e.a + -1 * e.c * cos_f))) := by
  unfold Ellipse.point_on_the_ellipse
  rw [if_pos rfl]

/-- `point_on_the_ellipse` with `focus_sign = 1` measures from `F2` toward
`F1`. -/
theorem point_on_the_ellipse_pos1 (e : Ellipse) (cos_f : ℝ) :
    e.point_on_the_ellipse cos_f 1 =
      turn_and_scale e.F2 e.F1 cos_f
        (-1 * (e.b ^ 2 / (e.a + 1 * e.c * cos_f))) := by
  unfold Ellipse.point_on_the_ellipse
  rw [if_neg (by norm_num)]

theorem mk'_F1 (F1 F2 : Pt) (d : ℝ) : (Ellipse.mk' F1 F2 d).F1 = F1 := rfl

theorem mk'_F2 (F1 F2 : Pt) (d : ℝ) : (Ellipse.mk' F1 F2 d).F2 = F2 := rfl

theorem mk'_c (F1 F2 : Pt) (d : ℝ) : (Ellipse.mk' F1 F2 d).c = distance F1 F2 / 2 := rfl

theorem mk'_a (F1 F2 : Pt) (d : ℝ) : (Ellipse.mk' F1 F2 d).a = d / 2 := rfl

/-- When the rope is longer than the focal chord, `b² = a² - c²` holds for the
stored `b`. -/
theorem mk'_b_sq (F1 F2 : Pt) (d : ℝ) (h : distance F1 F2 ≤ d) (h0 : 0 ≤ distance F1 F2) :
    (Ellipse.mk' F1 F2 d).b ^ 2 = (d / 2) ^ 2 - (distance F1 F2 / 2) ^ 2 := by
  unfold Ellipse.mk'
  simp only
  rw [Real.sq_sqrt]
  nlinarith [h, h0]

/-- The dot product of `turn_and_scale Z D cos_f rho - Z` with `D - Z` is
`rho * distance Z D * cos_f`. -/
theorem turn_and_scale_dotp (Z D : Pt) (cos_f rho : ℝ)
    (hZD : 0 < distance Z D) :
    dotp (turn_and_scale Z D cos_f rho - Z) (D - Z) = rho * distance Z D * cos_f := by
  have hne : distance Z D ≠ 0 := ne_of_gt hZD
  have key := rot_alg_dot ((D.1 - Z.1) / distance Z D) ((D.2 - Z.2) / distance Z D)
    cos_f (sin_from_cos cos_f) rho (distance Z D) (unit_vec_sq Z D hZD)
  have hd1 : distance Z D * ((D.1 - Z.1) / distance Z D) = D.1 - Z.1 := by
    field_simp
  have hd2 : distance Z D * ((D.2 - Z.2) / distance Z D) = D.2 - Z.2 := by
    field_simp
  unfold dotp
  simp only [Prod.fst_sub, Prod.snd_sub]
  rw [turn_and_scale_fst, turn_and_scale_snd]
  rw [hd1, hd2] at key
  linear_combination key

/-! ### The taut-string property of `point_on_the_ellipse` -/

/-- Core of the taut-string argument: a point placed by `turn_and_scale` at
signed radius `-σ·rho` has distances `rho` and `d - rho` to `Z` and `D`,
provided `rho` satisfies the focal-polar relation. -/
theorem taut_core (Z D : Pt) (d cos_f σ rho : ℝ)
    (hσ : σ = -1 ∨ σ = 1) (hq : 0 < distance Z D) (hc : |cos_f| ≤ 1)
    (hrho0 : 0 ≤ rho) (hrhod : rho ≤ d)
    (hrel : d ^ 2 - distance Z D ^ 2 = 2 * rho * (d + σ * distance Z D * cos_f)) :
    distance (turn_and_scale Z D cos_f (-σ * rho)) Z +
      distance (turn_and_scale Z D cos_f (-σ * rho)) D = d := by
  have hσsq : σ ^ 2 = 1 := by
    rcases hσ with h | h <;> rw [h] <;> norm_num
  have habs : |(-σ * rho)| = rho := by
    rcases hσ with h | h <;> rw [h] <;>
      simp [abs_of_nonneg hrho0]
  have h1 : distance (turn_and_scale Z D cos_f (-σ * rho)) Z = rho := by
    rw [turn_and_scale_dist_center Z D cos_f (-σ * rho) hc hq, habs]
  have h2sq : distance (turn_and_scale Z D cos_f (-σ * rho)) D ^ 2 = (d - rho) ^ 2 := by
    rw [turn_and_scale_dist_ref_sq Z D cos_f (-σ * rho) hc hq]
    linear_combination rho ^ 2 * hσsq - hrel
  have h2 : distance (turn_and_scale Z D cos_f (-σ * rho)) D = d - rho := by
    calc distance (turn_and_scale Z D cos_f (-σ * rho)) D
        = Real.sqrt (distance (turn_and_scale Z D cos_f (-σ * rho)) D ^ 2) :=
          (Real.sqrt_sq (distance_nonneg _ _)).symm
      _ = Real.sqrt ((d - rho) ^ 2) := by rw [h2sq]
      _ = |d - rho| := Real.sqrt_sq_eq_abs _
      _ = d - rho := abs_of_nonneg (by linarith)
  rw [h1, h2]
  ring

/-- The focal-polar radius is positive and at most `d` under the standing
hypotheses, and satisfies the focal relation. -/
theorem rho_facts (q d cos_f σ : ℝ) (hσ : σ = -1 ∨ σ = 1)
    (hq : 0 < q) (hd : q < d) (hc : |cos_f| ≤ 1) :
    0 < d / 2 + σ * (q / 2) * cos_f ∧
      0 < ((d / 2) ^ 2 - (q / 2) ^ 2) / (d / 2 + σ * (q / 2) * cos_f) ∧
      ((d / 2) ^ 2 - (q / 2) ^ 2) / (d / 2 + σ * (q / 2) * cos_f) ≤ d ∧
      d ^ 2 - q ^ 2 =
        2 * (((d / 2) ^ 2 - (q / 2) ^ 2) / (d / 2 + σ * (q / 2) * cos_f)) *
          (d + σ * q * cos_f) := by
  have hσc : |σ * cos_f| ≤ 1 := by
    rcases hσ with h | h <;> rw [h] <;> simp [abs_mul, hc]
  have habs := abs_le.mp hσc
  have hdpos : 0 < d := lt_trans hq hd
  have hden : 0 < d / 2 + σ * (q / 2) * cos_f := by nlinarith [habs.1, hq, hd]
  have hnum : 0 < (d / 2) ^ 2 - (q / 2) ^ 2 := by nlinarith [hq, hd]
  refine ⟨hden, div_pos hnum hden, ?_, ?_⟩
  · rw [div_le_iff hden]
    have hprod : 0 ≤ q * d * (1 + σ * cos_f) :=
      mul_nonneg (mul_nonneg hq.le hdpos.le) (by linarith [habs.1])
    nlinarith [sq_nonneg (d - q), hprod]
  · linear_combination (-4 : ℝ) *
      div_mul_cancel₀ ((d / 2) ^ 2 - (q / 2) ^ 2) (ne_of_gt hden)

/-- C4: for every `Ellipse` built from foci `F1, F2` and rope length `d` with
`d > |F1 - F2| > 0`, every `cos_f ∈ [-1, 1]` and every
`focus_sign ∈ {-1, +1}`, the point returned by `point_on_the_ellipse`
satisfies distance-to-`F1` + distance-to-`F2` = `d` exactly. -/
theorem C4_taut_string (F1 F2 : Pt) (d cos_f sgn : ℝ)
    (h0 : 0 < distance F1 F2) (hd : distance F1 F2 < d)
    (hc1 : -1 ≤ cos_f) (hc2 : cos_f ≤ 1) (hs : sgn = -1 ∨ sgn = 1) :
    distance ((Ellipse.mk' F1 F2 d).point_on_the_ellipse cos_f sgn) F1 +
      distance ((Ellipse.mk' F1 F2 d).point_on_the_ellipse cos_f sgn) F2 = d := by
  have hc : |cos_f| ≤ 1 := abs_le.mpr ⟨hc1, hc2⟩
  have hb2 := mk'_b_sq F1 F2 d (le_of_lt hd) (le_of_lt h0)
  rcases hs with h | h
  · subst h
    rw [point_on_the_ellipse_neg1, mk'_F1, mk'_F2, mk'_a, mk'_c, hb2]
    obtain ⟨hden, hpos, hled, hrel⟩ :=
      rho_facts (distance F1 F2) d cos_f (-1) (Or.inl rfl) h0 hd hc
    exact taut_core F1 F2 d cos_f (-1) _ (Or.inl rfl) h0 hc (le_of_lt hpos) hled hrel
  · subst h
    rw [point_on_the_ellipse_pos1, mk'_F1, mk'_F2, mk'_a, mk'_c, hb2]
    have h0' : 0 < distance F2 F1 := by rwa [distance_comm]
    obtain ⟨hden, hpos, hled, hrel⟩ :=
      rho_facts (distance F1 F2) d cos_f 1 (Or.inr rfl) h0 hd hc
    have hrel' : d ^ 2 - distance F2 F1 ^ 2 =
        2 * (((d / 2) ^ 2 - (distance F1 F2 / 2) ^ 2) /
          (d / 2 + 1 * (distance F1 F2 / 2) * cos_f)) * (d + 1 * distance F2 F1 * cos_f) := by
      rw [distance_comm F2 F1]
      exact hrel
    have core := taut_core F2 F1 d cos_f 1
      (((d / 2) ^ 2 - (distance F1 F2 / 2) ^ 2) / (d / 2 + 1 * (distance F1 F2 / 2) * cos_f))
      (Or.inr rfl) h0' hc (le_of_lt hpos) hled hrel'
    linarith [core]

/-- C4 witness: the taut-string identity at the concrete ellipse with foci
`(0,0)`, `(2,0)` and rope length `4`, evaluated at `cos_f = 0`,
`focus_sign = -1`. -/
theorem C4_taut_string_witness :
    distance ((Ellipse.mk' ((0 : ℝ), (0 : ℝ)) ((2 : ℝ), (0 : ℝ)) 4).point_on_the_ellipse 0 (-1))
        ((0 : ℝ), (0 : ℝ)) +
      distance ((Ellipse.mk' ((0 : ℝ), (0 : ℝ)) ((2 : ℝ), (0 : ℝ)) 4).point_on_the_ellipse 0 (-1))
        ((2 : ℝ), (0 : ℝ)) = 4 := by
  have hdist : distance ((0, 0) : Pt) ((2, 0) : Pt) = 2 := by
    unfold distance
    norm_num
    rw [show (4 : ℝ) = 2 ^ 2 by norm_num, Real.sqrt_sq]
    norm_num
  exact C4_taut_string ((0, 0) : Pt) ((2, 0) : Pt) 4 0 (-1)
    (by rw [hdist]; norm_num) (by rw [hdist]; norm_num)
    (by norm_num) (by norm_num) (Or.inl rfl)

/-- C3: `clockwiseness_of_points` is claimed to return the sign of the cross
product (+1 clockwise, -1 counter-clockwise, 0 collinear); in fact the code
takes `np.linalg.norm` of the scalar cross product, i.e. its absolute value,
before taking the sign, so the result is never negative.  At the explicit
counter-clockwise input `P1 = (0,0)`, `P2 = (0,1)`, `P3 = (1,0)` the cross
product is `-1` (so the claimed value is `-1`), but the code returns `1`. -/
theorem C3_clockwiseness_sign_bug :
    (∀ P1 P2 P3 : Pt, 0 ≤ clockwiseness_of_points P1 P2 P3) ∧
      clockwiseness_of_points ((0 : ℝ), (0 : ℝ)) ((0 : ℝ), (1 : ℝ)) ((1 : ℝ), (0 : ℝ)) = 1 ∧
      crossp (((0 : ℝ), (1 : ℝ)) - ((0 : ℝ), (0 : ℝ))) (((1 : ℝ), (0 : ℝ)) - ((0 : ℝ), (0 : ℝ))) = -1 ∧
      Real.sign
        (crossp (((0 : ℝ), (1 : ℝ)) - ((0 : ℝ), (0 : ℝ)))
          (((1 : ℝ), (0 : ℝ)) - ((0 : ℝ), (0 : ℝ)))) = -1 := by
  have hcross : crossp (((0 : ℝ), (1 : ℝ)) - ((0 : ℝ), (0 : ℝ)))
      (((1 : ℝ), (0 : ℝ)) - ((0 : ℝ), (0 : ℝ))) = -1 := by
    unfold crossp
    simp [Prod.fst_sub, Prod.snd_sub]
  refine ⟨?_, ?_, hcross, ?_⟩
  · intro P1 P2 P3
    unfold clockwiseness_of_points
    rcases lt_or_eq_of_le (abs_nonneg (crossp (P2 - P1) (P3 - P1))) with h | h
    · rw [Real.sign_of_pos h]
      norm_num
    · rw [← h, Real.sign_zero]
  · unfold clockwiseness_of_points
    rw [hcross]
    norm_num [Real.sign_one]
  · rw [hcross]
    exact Real.sign_of_neg (by norm_num)

/-- C9 counterexample: the claim says the sine used by `turn_and_scale` is
`√(max 0, 1 - cos²)`, hence `0` for any cosine of magnitude above `1`; but
the code computes `√|1 - cos²|`, which at `cos_f = 2` is `√3 > 0`, not `0`. -/
theorem C9_counterexample :
    sin_from_cos 2 = Real.sqrt 3 ∧
      Real.sqrt (max 0 (1 - (2 : ℝ) ^ 2)) = 0 ∧ (0 : ℝ) < Real.sqrt 3 := by
  refine ⟨?_, ?_, Real.sqrt_pos.mpr (by norm_num)⟩
  · unfold sin_from_cos
    norm_num
  · rw [show max (0 : ℝ) (1 - (2 : ℝ) ^ 2) = 0 by norm_num, Real.sqrt_zero]

/-- C9 amended: the sine used by `turn_and_scale` is `√|1 - cos_f²|`.  For
`|cos_f| ≤ 1` this agrees with the claimed clamped form
`√(max 0 (1 - cos_f²))`; for an overshoot `|cos_f| > 1` it instead equals
`√(cos_f² - 1)`, which is positive rather than the claimed `0`. -/
theorem C9_sine_clamp (c : ℝ) :
    (|c| ≤ 1 → sin_from_cos c = Real.sqrt (max 0 (1 - c ^ 2))) ∧
      (1 < |c| → sin_from_cos c = Real.sqrt (c ^ 2 - 1)) := by
  constructor
  · intro h
    unfold sin_from_cos
    have h1 : 0 ≤ 1 - c ^ 2 := by nlinarith [sq_abs c, abs_nonneg c]
    rw [abs_of_nonneg h1, max_eq_right h1]
  · intro h
    unfold sin_from_cos
    have h1 : 1 - c ^ 2 ≤ 0 := by nlinarith [sq_abs c, abs_nonneg c]
    rw [abs_of_nonpos h1]
    norm_num

/-- C7 counterexample: the claim says `a = d/2 ≤ c = |F1-F2|/2` raises; but at
`F1 = (0,0)`, `F2 = (2,0)`, `d = 2` we have `a = c = 1` and the construction
succeeds (the `math.sqrt` argument is `0`, not negative), yielding `b = 0`. -/
theorem C7_counterexample :
    (2 : ℝ) / 2 ≤ distance ((0 : ℝ), (0 : ℝ)) ((2 : ℝ), (0 : ℝ)) / 2 ∧
      ellipse_init_ok ((0 : ℝ), (0 : ℝ)) ((2 : ℝ), (0 : ℝ)) 2 ∧
      (Ellipse.mk' ((0 : ℝ), (0 : ℝ)) ((2 : ℝ), (0 : ℝ)) 2).b = 0 := by
  have hdist : distance ((0, 0) : Pt) ((2, 0) : Pt) = 2 := by
    unfold distance
    norm_num
    rw [show (4 : ℝ) = 2 ^ 2 by norm_num, Real.sqrt_sq]
    norm_num
  refine ⟨by rw [hdist], ?_, ?_⟩
  · unfold ellipse_init_ok
    rw [hdist]
    norm_num
  · unfold Ellipse.mk'
    simp only
    rw [hdist]
    norm_num

/-- C7 amended: `Ellipse.__init__` raises exactly when `a < c` strictly (the
`math.sqrt` argument is negative); for `a ≥ c` (including the boundary
`a = c`) construction succeeds with `c = |F1-F2|/2`, `a = d/2` and
`b = √(a² - c²)` so that `b² = a² - c²`, with `b = 0` at the boundary. -/
theorem C7_ellipse_domain (F1 F2 : Pt) (d : ℝ) (hd : 0 ≤ d) :
    (ellipse_init_raises F1 F2 d ↔ d / 2 < distance F1 F2 / 2) ∧
      (ellipse_init_ok F1 F2 d ↔ distance F1 F2 / 2 ≤ d / 2) ∧
      (Ellipse.mk' F1 F2 d).c = distance F1 F2 / 2 ∧
      (Ellipse.mk' F1 F2 d).a = d / 2 ∧
      (distance F1 F2 ≤ d →
        (Ellipse.mk' F1 F2 d).b ^ 2 = (d / 2) ^ 2 - (distance F1 F2 / 2) ^ 2) := by
  have h0 := distance_nonneg F1 F2
  refine ⟨?_, ?_, rfl, rfl, fun h => mk'_b_sq F1 F2 d h h0⟩
  · unfold ellipse_init_raises
    constructor
    · intro h
      nlinarith [h, hd, h0]
    · intro h
      nlinarith [h, hd, h0]
  · unfold ellipse_init_ok
    constructor
    · intro h
      nlinarith [h, hd, h0]
    · intro h
      nlinarith [h, hd, h0]

/-- C7 witness: the amended characterisation evaluated at `F1 = (0,0)`,
`F2 = (2,0)`, `d = 4`. -/
theorem C7_ellipse_domain_witness :
    (ellipse_init_raises ((0 : ℝ), (0 : ℝ)) ((2 : ℝ), (0 : ℝ)) 4 ↔
        (4 : ℝ) / 2 < distance ((0 : ℝ), (0 : ℝ)) ((2 : ℝ), (0 : ℝ)) / 2) ∧
      (ellipse_init_ok ((0 : ℝ), (0 : ℝ)) ((2 : ℝ), (0 : ℝ)) 4 ↔
        distance ((0 : ℝ), (0 : ℝ)) ((2 : ℝ), (0 : ℝ)) / 2 ≤ (4 : ℝ) / 2) ∧
      (Ellipse.mk' ((0 : ℝ), (0 : ℝ)) ((2 : ℝ), (0 : ℝ)) 4).c =
        distance ((0 : ℝ), (0 : ℝ)) ((2 : ℝ), (0 : ℝ)) / 2 ∧
      (Ellipse.mk' ((0 : ℝ), (0 : ℝ)) ((2 : ℝ), (0 : ℝ)) 4).a = (4 : ℝ) / 2 ∧
      (distance ((0 : ℝ), (0 : ℝ)) ((2 : ℝ), (0 : ℝ)) ≤ 4 →
        (Ellipse.mk' ((0 : ℝ), (0 : ℝ)) ((2 : ℝ), (0 : ℝ)) 4).b ^ 2 =
          ((4 : ℝ) / 2) ^ 2 - (distance ((0 : ℝ), (0 : ℝ)) ((2 : ℝ), (0 : ℝ)) / 2) ^ 2) :=
  C7_ellipse_domain ((0, 0) : Pt) ((2, 0) : Pt) 4 (by norm_num)

/-- C9 witness for the amended claim: the two branches evaluated at the
concrete cosines `1/2` (in range) and `2` (overshoot). -/
theorem C9_sine_clamp_witness :
    sin_from_cos (1 / 2) = Real.sqrt (max 0 (1 - ((1 : ℝ) / 2) ^ 2)) ∧
      sin_from_cos 2 = Real.sqrt ((2 : ℝ) ^ 2 - 1) :=
  ⟨(C9_sine_clamp (1 / 2)).1
      (by rw [abs_of_nonneg (by norm_num : (0 : ℝ) ≤ 1 / 2)]; norm_num),
    (C9_sine_clamp 2).2 (by rw [abs_of_nonneg (by norm_num : (0 : ℝ) ≤ 2)]; norm_num)⟩

/-! ### C6: the code has no input validation and can loop forever -/

theorem sin_from_cos_neg_one : sin_from_cos (-1) = 0 := by
  unfold sin_from_cos
  norm_num

theorem dist_10_00 : distance ((1 : ℝ), (0 : ℝ)) ((0 : ℝ), (0 : ℝ)) = 1 := by
  unfold distance
  norm_num

theorem two_pt_cos1 :
    three_point_cosine ((1 : ℝ), (0 : ℝ)) ((0 : ℝ), (0 : ℝ)) ((1 : ℝ), (0 : ℝ)) = 1 := by
  unfold three_point_cosine dotp
  rw [dist_10_00]
  norm_num

/-- On the degenerate two-point input, the candidate `A` computed with
cosine `-1` lies on the `y = 0` axis. -/
theorem two_pt_A_snd (d' : ℝ) :
    ((Ellipse.mk' ((0 : ℝ), (0 : ℝ)) ((1 : ℝ), (0 : ℝ)) d').point_on_the_ellipse (-1) (-1)).2
      = 0 := by
  rw [point_on_the_ellipse_neg1, turn_and_scale_snd, mk'_F1, mk'_F2]
  simp [sin_from_cos_neg_one]

/-- A point on the `y = 0` axis is collinear with `(1,0)` and `(0,0)`, so the
buggy sign test returns `0`. -/
theorem two_pt_cw_zero (X : Pt) (h : X.2 = 0) :
    clockwiseness_of_points X ((1 : ℝ), (0 : ℝ)) ((0 : ℝ), (0 : ℝ)) = 0 := by
  have hc : crossp (((1 : ℝ), (0 : ℝ)) - X) (((0 : ℝ), (0 : ℝ)) - X) = 0 := by
    unfold crossp
    simp only [Prod.fst_sub, Prod.snd_sub, h]
    ring
  unfold clockwiseness_of_points
  rw [hc]
  simp [Real.sign_zero]

/-- `turn_and_scale` from a degenerate zero-length axis returns the centre. -/
theorem turn_zero (c rho : ℝ) :
    turn_and_scale ((0 : ℝ), (0 : ℝ)) ((0 : ℝ), (0 : ℝ)) c rho = ((0 : ℝ), (0 : ℝ)) := by
  unfold turn_and_scale
  simp [distance_self]

/-- The sign test on a repeated first point returns `0`. -/
theorem cw_first_eq (P1 P3 : Pt) : clockwiseness_of_points P1 P1 P3 = 0 := by
  unfold clockwiseness_of_points crossp
  simp [Real.sign_zero]

theorem dist_00_10 : distance ((0 : ℝ), (0 : ℝ)) ((1 : ℝ), (0 : ℝ)) = 1 := by
  rw [distance_comm]
  exact dist_10_00

theorem two_pt_d2p0 :
    dist_2_prev [((0 : ℝ), (0 : ℝ)), ((1 : ℝ), (0 : ℝ))] 0 = 1 := by
  unfold dist_2_prev
  rw [show getP [((0 : ℝ), (0 : ℝ)), ((1 : ℝ), (0 : ℝ))] 0 = ((0 : ℝ), (0 : ℝ)) from rfl,
    show getP [((0 : ℝ), (0 : ℝ)), ((1 : ℝ), (0 : ℝ))]
      (prevIdx [((0 : ℝ), (0 : ℝ)), ((1 : ℝ), (0 : ℝ))] 0) = ((1 : ℝ), (0 : ℝ)) from rfl]
  exact dist_00_10

theorem two_pt_d2p1 :
    dist_2_prev [((0 : ℝ), (0 : ℝ)), ((1 : ℝ), (0 : ℝ))] 1 = 1 := by
  unfold dist_2_prev
  rw [show getP [((0 : ℝ), (0 : ℝ)), ((1 : ℝ), (0 : ℝ))] 1 = ((1 : ℝ), (0 : ℝ)) from rfl,
    show getP [((0 : ℝ), (0 : ℝ)), ((1 : ℝ), (0 : ℝ))]
      (prevIdx [((0 : ℝ), (0 : ℝ)), ((1 : ℝ), (0 : ℝ))] 1) = ((0 : ℝ), (0 : ℝ)) from rfl]
  exact dist_10_00

/-- For the two-point input `[(0,0), (1,0)]` with a nonnegative running `d`,
no bootstrap iteration raises (`math.sqrt` never sees a negative argument:
at `r = 1` the rope `d + 1` is at least the focal chord `1`, at `r = 0` the
two foci coincide so `a² - c² = a² ≥ 0`), and the orientation test is false
at every reachable state, so the `while True` loop of the Python code runs
forever: it neither raises nor exits. -/
theorem two_point_bootstrapE_none :
    ∀ fuel (d : ℝ), 0 ≤ d → ∀ (r : ℕ), r < 2 →
      bootstrapE [((0 : ℝ), (0 : ℝ)), ((1 : ℝ), (0 : ℝ))] fuel r d = none := by
  intro fuel
  induction fuel with
  | zero =>
    intro d hd r hr
    rfl
  | succ n ih =>
    intro d hd r hr
    interval_cases r
    · have g0 : getP [((0 : ℝ), (0 : ℝ)), ((1 : ℝ), (0 : ℝ))] 0 = ((0 : ℝ), (0 : ℝ)) := rfl
      have gnext : getP [((0 : ℝ), (0 : ℝ)), ((1 : ℝ), (0 : ℝ))]
          ((0 + 1) % List.length [((0 : ℝ), (0 : ℝ)), ((1 : ℝ), (0 : ℝ))]) =
          ((1 : ℝ), (0 : ℝ)) := rfl
      simp only [bootstrapE, g0, gnext]
      rw [if_neg (by
        intro hcon
        unfold ellipse_init_raises at hcon
        rw [distance_self] at hcon
        nlinarith [sq_nonneg ((d + dist_2_prev [((0 : ℝ), (0 : ℝ)), ((1 : ℝ), (0 : ℝ))] 0) / 2),
          hcon])]
      have hA : (Ellipse.mk' ((0 : ℝ), (0 : ℝ)) ((0 : ℝ), (0 : ℝ))
          (d + dist_2_prev [((0 : ℝ), (0 : ℝ)), ((1 : ℝ), (0 : ℝ))] 0)).point_on_the_ellipse
          (-(three_point_cosine ((0 : ℝ), (0 : ℝ)) ((0 : ℝ), (0 : ℝ))
            (getP [((0 : ℝ), (0 : ℝ)), ((1 : ℝ), (0 : ℝ))]
              (prevIdx [((0 : ℝ), (0 : ℝ)), ((1 : ℝ), (0 : ℝ))] 0)))) (-1) =
          ((0 : ℝ), (0 : ℝ)) := by
        rw [point_on_the_ellipse_neg1, mk'_F1, mk'_F2]
        exact turn_zero _ _
      rw [hA, if_neg]
      · exact ih _ (by rw [two_pt_d2p0]; linarith) _ (by norm_num)
      · rw [cw_first_eq]
        norm_num
    · have g0 : getP [((0 : ℝ), (0 : ℝ)), ((1 : ℝ), (0 : ℝ))] 0 = ((0 : ℝ), (0 : ℝ)) := rfl
      have g1 : getP [((0 : ℝ), (0 : ℝ)), ((1 : ℝ), (0 : ℝ))] 1 = ((1 : ℝ), (0 : ℝ)) := rfl
      have gp : getP [((0 : ℝ), (0 : ℝ)), ((1 : ℝ), (0 : ℝ))]
          (prevIdx [((0 : ℝ), (0 : ℝ)), ((1 : ℝ), (0 : ℝ))] 0) = ((1 : ℝ), (0 : ℝ)) := rfl
      have gnext : getP [((0 : ℝ), (0 : ℝ)), ((1 : ℝ), (0 : ℝ))]
          ((1 + 1) % List.length [((0 : ℝ), (0 : ℝ)), ((1 : ℝ), (0 : ℝ))]) =
          ((0 : ℝ), (0 : ℝ)) := rfl
      simp only [bootstrapE, g0, g1, gp, gnext]
      rw [if_neg (by
        intro hcon
        unfold ellipse_init_raises at hcon
        rw [two_pt_d2p1, dist_00_10] at hcon
        nlinarith [hd, sq_nonneg d, hcon])]
      rw [two_pt_cos1, if_neg]
      · exact ih _ (by rw [two_pt_d2p1]; linarith) _ (by norm_num)
      · rw [two_pt_cw_zero _ (two_pt_A_snd _)]
        norm_num

/-- C6: the claim says invalid inputs (e.g. fewer than 3 points) raise
`InvalidInput` before any walk state is constructed, and that bootstrap/walk
iteration guards prevent looping forever.  The code defines no such
exception and no such guards: on the 2-point input `[(0,0), (1,0)]` with any
nonnegative slack, the bootstrap `while True` loop constructs walk state,
raises nothing (no `math.sqrt` call sees a negative argument), and never
exits — the computation loops forever instead of raising. -/
theorem C6_no_invalid_input (slack : ℝ) (hs : 0 ≤ slack) :
    neverReturnsE [((0 : ℝ), (0 : ℝ)), ((1 : ℝ), (0 : ℝ))] slack := by
  intro fuel
  unfold draw_with_slackE
  rw [two_point_bootstrapE_none fuel slack hs 1 (by norm_num)]

/-- C6 witness: the theorem applied at slack `2` and fuel `5`. -/
theorem C6_no_invalid_input_witness :
    draw_with_slackE [((0 : ℝ), (0 : ℝ)), ((1 : ℝ), (0 : ℝ))] 2 5 = none :=
  C6_no_invalid_input 2 (by norm_num) 5

/-- C6 counterexample: at the concrete invalid input `[(0,0), (1,0)]` with
slack `1`, the computation neither raises nor returns for any amount of
fuel: the original loops forever. -/
theorem C6_counterexample_two_points :
    neverReturnsE [((0 : ℝ), (0 : ℝ)), ((1 : ℝ), (0 : ℝ))] 1 := by
  intro fuel
  unfold draw_with_slackE
  rw [two_point_bootstrapE_none fuel 1 (by norm_num) 1 (by norm_num)]

/-! ### C5: the tie-break of the main walk -/

theorem mod_succ_pred (n l : ℕ) (h : l < n) : ((l + 1) % n + n - 1) % n = l := by
  rcases Nat.lt_or_ge (l + 1) n with h1 | h1
  · rw [Nat.mod_eq_of_lt h1]
    have h2 : l + 1 + n - 1 = l + n := by omega
    rw [h2, Nat.add_mod_right, Nat.mod_eq_of_lt h]
  · have h2 : l + 1 = n := by omega
    rw [h2, Nat.mod_self]
    have h3 : 0 + n - 1 = l := by omega
    rw [h3, Nat.mod_eq_of_lt h]

/-- When `l` is a valid index, the cached edge `dist_2_prev[(l+1) % n]` is the
edge between `P[(l+1) % n]` and `P[l]`. -/
theorem dist_2_prev_succ (P : List Pt) (l : ℕ) (h : l < P.length) :
    dist_2_prev P ((l + 1) % P.length) =
      distance (getP P ((l + 1) % P.length)) (getP P l) := by
  unfold dist_2_prev prevIdx
  rw [mod_succ_pred P.length l h]

/-- C5: in every main-walk iteration, if `cos_for_A2 < cos_of_B_rel_F1` the
fragment ends at `A2`, `l` advances to `l_next`, the edge
`|P[l_next] - P[l]|` is subtracted from `d`, and the pinch (tick parent) is
the new `P[l]`; otherwise the fragment ends at `B`, `r` advances to `r_next`,
the edge `|P[r_next] - P[r]|` is added to `d`, and the pinch is the old
`P[r]`. -/
theorem C5_tie_break (P : List Pt) (s : WalkState)
    (hl : s.l < P.length) (hr : s.r < P.length) :
    (three_point_cosine (getP P s.r) (getP P s.l) (getP P ((s.l + 1) % P.length)) <
        three_point_cosine
          ((Ellipse.mk' (getP P s.l) (getP P s.r) s.d).point_on_the_ellipse
            (three_point_cosine (getP P s.l) (getP P s.r) (getP P ((s.r + 1) % P.length))) 1)
          (getP P s.l) (getP P s.r) →
      walkStep P s =
        ({ e := Ellipse.mk' (getP P s.l) (getP P s.r) s.d
           A := s.A
           B := (Ellipse.mk' (getP P s.l) (getP P s.r) s.d).point_on_the_ellipse
             (three_point_cosine (getP P s.r) (getP P s.l) (getP P ((s.l + 1) % P.length))) (-1)
           tick := getP P ((s.l + 1) % P.length) },
         { l := (s.l + 1) % P.length
           l_next := (s.l + 1) % P.length
           r := s.r
           d := s.d - distance (getP P ((s.l + 1) % P.length)) (getP P s.l)
           A := (Ellipse.mk' (getP P s.l) (getP P s.r) s.d).point_on_the_ellipse
             (three_point_cosine (getP P s.r) (getP P s.l) (getP P ((s.l + 1) % P.length))) (-1) })) ∧
    (¬ (three_point_cosine (getP P s.r) (getP P s.l) (getP P ((s.l + 1) % P.length)) <
        three_point_cosine
          ((Ellipse.mk' (getP P s.l) (getP P s.r) s.d).point_on_the_ellipse
            (three_point_cosine (getP P s.l) (getP P s.r) (getP P ((s.r + 1) % P.length))) 1)
          (getP P s.l) (getP P s.r)) →
      walkStep P s =
        ({ e := Ellipse.mk' (getP P s.l) (getP P s.r) s.d
           A := s.A
           B := (Ellipse.mk' (getP P s.l) (getP P s.r) s.d).point_on_the_ellipse
             (three_point_cosine (getP P s.l) (getP P s.r) (getP P ((s.r + 1) % P.length))) 1
           tick := getP P s.r },
         { l := s.l
           l_next := (s.l + 1) % P.length
           r := (s.r + 1) % P.length
           d := s.d + distance (getP P ((s.r + 1) % P.length)) (getP P s.r)
           A := (Ellipse.mk' (getP P s.l) (getP P s.r) s.d).point_on_the_ellipse
             (three_point_cosine (getP P s.l) (getP P s.r) (getP P ((s.r + 1) % P.length))) 1 })) := by
  constructor
  · intro h
    unfold walkStep
    simp only
    rw [if_pos h, dist_2_prev_succ P s.l hl]
  · intro h
    unfold walkStep
    simp only
    rw [if_neg h, dist_2_prev_succ P s.r hr]

/-- Degenerate cosine: when the two rays point at the vertex itself the
denominator is zero and the Lean convention gives `0`. -/
theorem tpc_zero_right (X Y : Pt) : three_point_cosine X Y Y = 0 := by
  unfold three_point_cosine
  rw [distance_self, mul_zero, div_zero]

/-- Degenerate cosine, first-argument version. -/
theorem tpc_zero_left (Y X : Pt) : three_point_cosine Y Y X = 0 := by
  unfold three_point_cosine
  rw [distance_self, zero_mul, div_zero]

/-- C5 witness: the `else`-branch conclusion of the tie-break theorem,
evaluated on the triple-repeated point list (where both cosines degenerate to
`0`, so the comparison is false). -/
theorem C5_tie_break_witness :
    (walkStep [((0 : ℝ), (0 : ℝ)), ((0 : ℝ), (0 : ℝ)), ((0 : ℝ), (0 : ℝ))]
        { l := 0, l_next := 1, r := 1, d := 2, A := ((0 : ℝ), (0 : ℝ)) }).2.r =
      (1 + 1) % List.length [((0 : ℝ), (0 : ℝ)), ((0 : ℝ), (0 : ℝ)), ((0 : ℝ), (0 : ℝ))] ∧
    (walkStep [((0 : ℝ), (0 : ℝ)), ((0 : ℝ), (0 : ℝ)), ((0 : ℝ), (0 : ℝ))]
        { l := 0, l_next := 1, r := 1, d := 2, A := ((0 : ℝ), (0 : ℝ)) }).2.l = 0 := by
  have hbranch : ¬ (three_point_cosine
      (getP [((0 : ℝ), (0 : ℝ)), ((0 : ℝ), (0 : ℝ)), ((0 : ℝ), (0 : ℝ))]
        (WalkState.r { l := 0, l_next := 1, r := 1, d := 2, A := ((0 : ℝ), (0 : ℝ)) }))
      (getP [((0 : ℝ), (0 : ℝ)), ((0 : ℝ), (0 : ℝ)), ((0 : ℝ), (0 : ℝ))]
        (WalkState.l { l := 0, l_next := 1, r := 1, d := 2, A := ((0 : ℝ), (0 : ℝ)) }))
      (getP [((0 : ℝ), (0 : ℝ)), ((0 : ℝ), (0 : ℝ)), ((0 : ℝ), (0 : ℝ))]
        ((WalkState.l { l := 0, l_next := 1, r := 1, d := 2, A := ((0 : ℝ), (0 : ℝ)) } + 1) %
          List.length [((0 : ℝ), (0 : ℝ)), ((0 : ℝ), (0 : ℝ)), ((0 : ℝ), (0 : ℝ))])) <
      three_point_cosine
        ((Ellipse.mk'
          (getP [((0 : ℝ), (0 : ℝ)), ((0 : ℝ), (0 : ℝ)), ((0 : ℝ), (0 : ℝ))]
            (WalkState.l { l := 0, l_next := 1, r := 1, d := 2, A := ((0 : ℝ), (0 : ℝ)) }))
          (getP [((0 : ℝ), (0 : ℝ)), ((0 : ℝ), (0 : ℝ)), ((0 : ℝ), (0 : ℝ))]
            (WalkState.r { l := 0, l_next := 1, r := 1, d := 2, A := ((0 : ℝ), (0 : ℝ)) }))
          (WalkState.d { l := 0, l_next := 1, r := 1, d := 2, A := ((0 : ℝ), (0 : ℝ)) })).point_on_the_ellipse
          (three_point_cosine
            (getP [((0 : ℝ), (0 : ℝ)), ((0 : ℝ), (0 : ℝ)), ((0 : ℝ), (0 : ℝ))]
              (WalkState.l { l := 0, l_next := 1, r := 1, d := 2, A := ((0 : ℝ), (0 : ℝ)) }))
            (getP [((0 : ℝ), (0 : ℝ)), ((0 : ℝ), (0 : ℝ)), ((0 : ℝ), (0 : ℝ))]
              (WalkState.r { l := 0, l_next := 1, r := 1, d := 2, A := ((0 : ℝ), (0 : ℝ)) }))
            (getP [((0 : ℝ), (0 : ℝ)), ((0 : ℝ), (0 : ℝ)), ((0 : ℝ), (0 : ℝ))]
              ((WalkState.r { l := 0, l_next := 1, r := 1, d := 2, A := ((0 : ℝ), (0 : ℝ)) } + 1) %
                List.length [((0 : ℝ), (0 : ℝ)), ((0 : ℝ), (0 : ℝ)), ((0 : ℝ), (0 : ℝ))]))) 1)
        (getP [((0 : ℝ), (0 : ℝ)), ((0 : ℝ), (0 : ℝ)), ((0 : ℝ), (0 : ℝ))]
          (WalkState.l { l := 0, l_next := 1, r := 1, d := 2, A := ((0 : ℝ), (0 : ℝ)) }))
        (getP [((0 : ℝ), (0 : ℝ)), ((0 : ℝ), (0 : ℝ)), ((0 : ℝ), (0 : ℝ))]
          (WalkState.r { l := 0, l_next := 1, r := 1, d := 2, A := ((0 : ℝ), (0 : ℝ)) }))) := by
    rw [show getP [((0 : ℝ), (0 : ℝ)), ((0 : ℝ), (0 : ℝ)), ((0 : ℝ), (0 : ℝ))]
        (WalkState.l { l := 0, l_next := 1, r := 1, d := 2, A := ((0 : ℝ), (0 : ℝ)) }) =
        ((0 : ℝ), (0 : ℝ)) from rfl,
      show getP [((0 : ℝ), (0 : ℝ)), ((0 : ℝ), (0 : ℝ)), ((0 : ℝ), (0 : ℝ))]
        (WalkState.r { l := 0, l_next := 1, r := 1, d := 2, A := ((0 : ℝ), (0 : ℝ)) }) =
        ((0 : ℝ), (0 : ℝ)) from rfl]
    rw [tpc_zero_right, tpc_zero_left]
    norm_num
  have key := (C5_tie_break [((0 : ℝ), (0 : ℝ)), ((0 : ℝ), (0 : ℝ)), ((0 : ℝ), (0 : ℝ))]
    { l := 0, l_next := 1, r := 1, d := 2, A := ((0 : ℝ), (0 : ℝ)) }
    (by norm_num) (by norm_num)).2 hbranch
  rw [key]
  exact ⟨rfl, rfl⟩

/-! ### C10: the accumulated string length equals slack plus the window sum -/

theorem mod_window_shrink (n l r : ℕ) (hl : l < n) (hr : r < n)
    (hw : 1 ≤ (r + n - l) % n) :
    (r + n - (l + 1) % n) % n = (r + n - l) % n - 1 := by
  rcases Nat.lt_or_ge (l + 1) n with h1 | h1
  · rw [Nat.mod_eq_of_lt h1]
    rcases Nat.lt_or_ge (r + n - l) n with h2 | h2
    · rw [Nat.mod_eq_of_lt h2] at hw ⊢
      rw [Nat.mod_eq_of_lt (by omega : r + n - (l + 1) < n)]
      omega
    · have e1 : (r + n - l) % n = r + n - l - n := by
        rw [Nat.mod_eq_sub_mod h2, Nat.mod_eq_of_lt (by omega)]
      rw [e1] at hw ⊢
      have h4 : n ≤ r + n - (l + 1) := by omega
      rw [Nat.mod_eq_sub_mod h4, Nat.mod_eq_of_lt (by omega)]
      omega
  · have hl1 : l + 1 = n := by omega
    have e2 : r + n - l = r + 1 := by omega
    rw [hl1, Nat.mod_self, Nat.sub_zero, Nat.add_mod_right, Nat.mod_eq_of_lt hr, e2]
    rcases Nat.lt_or_ge (r + 1) n with h3 | h3
    · rw [Nat.mod_eq_of_lt h3]
      omega
    · have h4 : r + 1 = n := by omega
      rw [e2, h4, Nat.mod_self] at hw
      omega

theorem mod_window_grow (n l r : ℕ) (hl : l < n) (hr : r < n)
    (hw : (r + n - l) % n + 1 < n) :
    ((r + 1) % n + n - l) % n = (r + n - l) % n + 1 := by
  rcases Nat.lt_or_ge (r + 1) n with h1 | h1
  · rw [Nat.mod_eq_of_lt h1]
    rcases Nat.lt_or_ge (r + n - l) n with h2 | h2
    · rw [Nat.mod_eq_of_lt h2] at hw ⊢
      rw [Nat.mod_eq_of_lt (by omega : r + 1 + n - l < n)]
      omega
    · have e1 : (r + n - l) % n = r + n - l - n := by
        rw [Nat.mod_eq_sub_mod h2, Nat.mod_eq_of_lt (by omega)]
      rw [e1] at hw ⊢
      have h4 : n ≤ r + 1 + n - l := by omega
      rw [Nat.mod_eq_sub_mod h4, Nat.mod_eq_of_lt (by omega)]
      omega
  · have hr1 : r + 1 = n := by omega
    rw [hr1, Nat.mod_self]
    rcases Nat.eq_zero_or_pos l with h0 | h0
    · subst h0
      rw [Nat.sub_zero, Nat.add_mod_right, Nat.mod_eq_of_lt hr] at hw
      omega
    · rw [Nat.mod_eq_of_lt (by omega : 0 + n - l < n)]
      have h6 : n ≤ r + n - l := by omega
      rw [Nat.mod_eq_sub_mod h6, Nat.mod_eq_of_lt (by omega)]
      omega

/-- Splitting off the first edge of a cyclic edge sum. -/
theorem sum_shift (P : List Pt) (l m : ℕ) :
    ∑ k ∈ Finset.range (m + 1), dist_2_prev P ((l + 1 + k) % P.length) =
      dist_2_prev P ((l + 1) % P.length) +
        ∑ k ∈ Finset.range m, dist_2_prev P (((l + 1) % P.length + 1 + k) % P.length) := by
  rw [Finset.sum_range_succ', add_comm]
  congr 1
  apply Finset.sum_congr rfl
  intro k _
  congr 1
  conv_rhs => rw [add_assoc]
  rw [Nat.mod_add_mod]
  congr 1
  omega

/-- Advancing `l` removes exactly the edge `dist_2_prev[(l+1) % n]` from the
window sum. -/
theorem windowSum_shrink (P : List Pt) (l r : ℕ) (hl : l < P.length) (hr : r < P.length)
    (hw : 1 ≤ (r + P.length - l) % P.length) :
    windowSum P l r =
      dist_2_prev P ((l + 1) % P.length) + windowSum P ((l + 1) % P.length) r := by
  unfold windowSum
  rw [mod_window_shrink P.length l r hl hr hw]
  obtain ⟨m, hm⟩ : ∃ m, (r + P.length - l) % P.length = m + 1 :=
    ⟨_, (Nat.succ_pred_eq_of_pos hw).symm⟩
  rw [hm]
  simp only [Nat.add_sub_cancel]
  exact sum_shift P l m

/-- Advancing `r` adds exactly the edge `dist_2_prev[(r+1) % n]` to the
window sum. -/
theorem windowSum_grow (P : List Pt) (l r : ℕ) (hl : l < P.length) (hr : r < P.length)
    (hw : (r + P.length - l) % P.length + 1 < P.length) :
    windowSum P l ((r + 1) % P.length) =
      windowSum P l r + dist_2_prev P ((r + 1) % P.length) := by
  unfold windowSum
  rw [mod_window_grow P.length l r hl hr hw, Finset.sum_range_succ]
  congr 2
  rw [Nat.add_comm (l + 1), Nat.mod_add_mod]
  have e : r + P.length - l + (l + 1) = r + 1 + P.length := by omega
  rw [e, Nat.add_mod_right]

/-- The bootstrap loop accumulates exactly the edges it has passed over
(no-wrap form: the fuel keeps `r` below `n`). -/
theorem bootstrap_sum (P : List Pt) :
    ∀ (fuel r₀ : ℕ) (d₀ : ℝ) (r : ℕ) (d : ℝ) (A : Pt), 1 ≤ r₀ → r₀ + fuel ≤ P.length →
      bootstrap P fuel r₀ d₀ = some (r, d, A) →
      (d = d₀ + ∑ k ∈ Finset.range (r + 1 - r₀), dist_2_prev P (r₀ + k)) ∧
        r₀ ≤ r ∧ r < P.length := by
  intro fuel
  induction fuel with
  | zero =>
    intro r₀ d₀ r d A h1 h2 h3
    exact absurd h3 (by simp [bootstrap])
  | succ m ih =>
    intro r₀ d₀ r d A h1 h2 h3
    simp only [bootstrap] at h3
    by_cases hcond : clockwiseness_of_points
        ((Ellipse.mk' (getP P 0) (getP P r₀) (d₀ + dist_2_prev P r₀)).point_on_the_ellipse
          (-(three_point_cosine (getP P r₀) (getP P 0) (getP P (prevIdx P 0)))) (-1))
        (getP P r₀) (getP P ((r₀ + 1) % P.length)) = 1
    · rw [if_pos hcond] at h3
      obtain ⟨hr, hd, hA⟩ : r₀ = r ∧ d₀ + dist_2_prev P r₀ = d ∧ _ = A := by
        have := Option.some.inj h3
        exact ⟨congrArg Prod.fst this,
          congrArg Prod.fst (congrArg Prod.snd this),
          congrArg Prod.snd (congrArg Prod.snd this)⟩
      subst hr
      refine ⟨?_, le_refl _, by omega⟩
      rw [← hd]
      have e1 : r₀ + 1 - r₀ = 1 := by omega
      rw [e1, Finset.sum_range_one, Nat.add_zero]
    · rw [if_neg hcond] at h3
      rcases Nat.lt_or_ge (r₀ + 1) P.length with hlt | hge
      · rw [Nat.mod_eq_of_lt hlt] at h3
        obtain ⟨hd, hle, hlt2⟩ :=
          ih (r₀ + 1) (d₀ + dist_2_prev P r₀) r d A (by omega) (by omega) h3
        refine ⟨?_, by omega, hlt2⟩
        have hsplit : r + 1 - r₀ = (r - r₀) + 1 := by omega
        rw [hsplit, Finset.sum_range_succ']
        have e2 : r + 1 - (r₀ + 1) = r - r₀ := by omega
        rw [e2] at hd
        rw [hd]
        have e3 : ∑ k ∈ Finset.range (r - r₀), dist_2_prev P (r₀ + 1 + k) =
            ∑ k ∈ Finset.range (r - r₀), dist_2_prev P (r₀ + (k + 1)) := by
          apply Finset.sum_congr rfl
          intro k _
          congr 1
          omega
        rw [e3]
        simp only [Nat.add_zero]
        ring
      · have hm : m = 0 := by omega
        subst hm
        exact absurd h3 (by simp [bootstrap])

/-- `walkStep` written as a single `if`, for rewriting. -/
theorem walkStep_eq (P : List Pt) (s : WalkState) :
    walkStep P s =
      if three_point_cosine (getP P s.r) (getP P s.l) (getP P ((s.l + 1) % P.length)) <
          three_point_cosine
            ((Ellipse.mk' (getP P s.l) (getP P s.r) s.d).point_on_the_ellipse
              (three_point_cosine (getP P s.l) (getP P s.r)
                (getP P ((s.r + 1) % P.length))) 1)
            (getP P s.l) (getP P s.r) then
        ({ e := Ellipse.mk' (getP P s.l) (getP P s.r) s.d
           A := s.A
           B := (Ellipse.mk' (getP P s.l) (getP P s.r) s.d).point_on_the_ellipse
             (three_point_cosine (getP P s.r) (getP P s.l)
               (getP P ((s.l + 1) % P.length))) (-1)
           tick := getP P ((s.l + 1) % P.length) },
         { l := (s.l + 1) % P.length
           l_next := (s.l + 1) % P.length
           r := s.r
           d := s.d - dist_2_prev P ((s.l + 1) % P.length)
           A := (Ellipse.mk' (getP P s.l) (getP P s.r) s.d).point_on_the_ellipse
             (three_point_cosine (getP P s.r) (getP P s.l)
               (getP P ((s.l + 1) % P.length))) (-1) })
      else
        ({ e := Ellipse.mk' (getP P s.l) (getP P s.r) s.d
           A := s.A
           B := (Ellipse.mk' (getP P s.l) (getP P s.r) s.d).point_on_the_ellipse
             (three_point_cosine (getP P s.l) (getP P s.r)
               (getP P ((s.r + 1) % P.length))) 1
           tick := getP P s.r },
         { l := s.l
           l_next := (s.l + 1) % P.length
           r := (s.r + 1) % P.length
           d := s.d + dist_2_prev P ((s.r + 1) % P.length)
           A := (Ellipse.mk' (getP P s.l) (getP P s.r) s.d).point_on_the_ellipse
             (three_point_cosine (getP P s.l) (getP P s.r)
               (getP P ((s.r + 1) % P.length))) 1 }) := rfl

/-- C10: after the bootstrap loop (run without wrapping past `n`), and across
every main-walk step with a nonempty active window, the accumulated string
length `d` equals `slack` plus the sum of the cached edge lengths
`dist_2_prev[i]` over the cyclic window from `l` (exclusive) to `r`
(inclusive); each step adds or subtracts exactly one edge length.  An
`l`-advance (subtract) step needs only the nonempty window; an `r`-advance
(add) step additionally needs the grown window not to wrap to empty, which
the conditional last hypothesis requires exactly on that branch. -/
theorem C10_window_invariant :
    (∀ (P : List Pt) (slack : ℝ) (fuel r : ℕ) (d : ℝ) (A : Pt),
        1 + fuel ≤ P.length →
        bootstrap P fuel 1 slack = some (r, d, A) →
        d = slack + windowSum P 0 r) ∧
      (∀ (P : List Pt) (slack : ℝ) (s : WalkState),
        s.l < P.length → s.r < P.length →
        1 ≤ (s.r + P.length - s.l) % P.length →
        (¬ three_point_cosine (getP P s.r) (getP P s.l)
            (getP P ((s.l + 1) % P.length)) <
          three_point_cosine
            ((Ellipse.mk' (getP P s.l) (getP P s.r) s.d).point_on_the_ellipse
              (three_point_cosine (getP P s.l) (getP P s.r)
                (getP P ((s.r + 1) % P.length))) 1)
            (getP P s.l) (getP P s.r) →
          (s.r + P.length - s.l) % P.length + 1 < P.length) →
        s.d = slack + windowSum P s.l s.r →
        (walkStep P s).2.d = slack + windowSum P (walkStep P s).2.l (walkStep P s).2.r) := by
  constructor
  · intro P slack fuel r d A hfuel hboot
    obtain ⟨hd, hge, hlt⟩ := bootstrap_sum P fuel 1 slack r d A (le_refl 1) hfuel hboot
    rw [hd]
    congr 1
    unfold windowSum
    rw [Nat.sub_zero, Nat.add_mod_right, Nat.mod_eq_of_lt hlt]
    simp only [Nat.add_sub_cancel]
    apply Finset.sum_congr rfl
    intro k hk
    have hk' : k < r := Finset.mem_range.mp hk
    congr 1
    rw [Nat.mod_eq_of_lt (by omega)]
  · intro P slack s hl hr hw1 hw2 hinv
    rw [walkStep_eq]
    by_cases hbr : three_point_cosine (getP P s.r) (getP P s.l)
        (getP P ((s.l + 1) % P.length)) <
        three_point_cosine
          ((Ellipse.mk' (getP P s.l) (getP P s.r) s.d).point_on_the_ellipse
            (three_point_cosine (getP P s.l) (getP P s.r)
              (getP P ((s.r + 1) % P.length))) 1)
          (getP P s.l) (getP P s.r)
    · rw [if_pos hbr]
      simp only
      rw [windowSum_shrink P s.l s.r hl hr hw1] at hinv
      linarith [hinv]
    · rw [if_neg hbr]
      simp only
      rw [windowSum_grow P s.l s.r hl hr (hw2 hbr)]
      linarith [hinv]

/-! ### Concrete evaluation input for the C10 witness -/

theorem sin_from_cos_zero : sin_from_cos 0 = 1 := by
  unfold sin_from_cos
  norm_num

theorem dist_40_00 : distance ((4 : ℝ), (0 : ℝ)) ((0 : ℝ), (0 : ℝ)) = 4 := by
  unfold distance
  norm_num
  rw [show (16 : ℝ) = 4 ^ 2 by norm_num, Real.sqrt_sq]
  norm_num

theorem dist_00_40 : distance ((0 : ℝ), (0 : ℝ)) ((4 : ℝ), (0 : ℝ)) = 4 := by
  rw [distance_comm]
  exact dist_40_00

theorem triangle_d2p1 :
    dist_2_prev [((0 : ℝ), (0 : ℝ)), ((4 : ℝ), (0 : ℝ)), ((0 : ℝ), (3 : ℝ))] 1 = 4 := by
  unfold dist_2_prev
  rw [show getP [((0 : ℝ), (0 : ℝ)), ((4 : ℝ), (0 : ℝ)), ((0 : ℝ), (3 : ℝ))] 1 =
      ((4 : ℝ), (0 : ℝ)) from rfl,
    show getP [((0 : ℝ), (0 : ℝ)), ((4 : ℝ), (0 : ℝ)), ((0 : ℝ), (3 : ℝ))]
      (prevIdx [((0 : ℝ), (0 : ℝ)), ((4 : ℝ), (0 : ℝ)), ((0 : ℝ), (3 : ℝ))] 1) =
      ((0 : ℝ), (0 : ℝ)) from rfl]
  exact dist_40_00

theorem triangle_cosA :
    three_point_cosine ((4 : ℝ), (0 : ℝ)) ((0 : ℝ), (0 : ℝ)) ((0 : ℝ), (3 : ℝ)) = 0 := by
  unfold three_point_cosine dotp
  simp only [Prod.fst_sub, Prod.snd_sub]
  norm_num

theorem triangle_b_sq :
    (Ellipse.mk' ((0 : ℝ), (0 : ℝ)) ((4 : ℝ), (0 : ℝ)) 8).b ^ 2 = 12 := by
  rw [mk'_b_sq _ _ _ (by rw [dist_00_40]; norm_num) (distance_nonneg _ _), dist_00_40]
  norm_num

/-- The bootstrap candidate point for the right triangle input evaluates to
`(0, -3)`. -/
theorem triangle_A :
    (Ellipse.mk' ((0 : ℝ), (0 : ℝ)) ((4 : ℝ), (0 : ℝ)) 8).point_on_the_ellipse 0 (-1) =
      ((0 : ℝ), (-3 : ℝ)) := by
  rw [point_on_the_ellipse_neg1, mk'_F1, mk'_F2]
  unfold turn_and_scale
  simp only
  rw [triangle_b_sq, mk'_a, mk'_c, dist_00_40, sin_from_cos_zero, Prod.mk.injEq]
  norm_num

theorem triangle_cw :
    clockwiseness_of_points ((0 : ℝ), (-3 : ℝ)) ((4 : ℝ), (0 : ℝ)) ((0 : ℝ), (3 : ℝ)) = 1 := by
  have hc : crossp (((4 : ℝ), (0 : ℝ)) - ((0 : ℝ), (-3 : ℝ)))
      (((0 : ℝ), (3 : ℝ)) - ((0 : ℝ), (-3 : ℝ))) = 24 := by
    unfold crossp
    simp only [Prod.fst_sub, Prod.snd_sub]
    norm_num
  unfold clockwiseness_of_points
  rw [hc, show |(24 : ℝ)| = 24 from abs_of_pos (by norm_num)]
  exact Real.sign_of_pos (by norm_num)

/-- The bootstrap run on the right triangle `[(0,0), (4,0), (0,3)]` with slack
`4` exits at once with `r = 1`, `d = 8`, `A = (0,-3)`. -/
theorem triangle_bootstrap :
    bootstrap [((0 : ℝ), (0 : ℝ)), ((4 : ℝ), (0 : ℝ)), ((0 : ℝ), (3 : ℝ))] 1 1 4 =
      some (1, 8, ((0 : ℝ), (-3 : ℝ))) := by
  simp only [bootstrap]
  rw [show getP [((0 : ℝ), (0 : ℝ)), ((4 : ℝ), (0 : ℝ)), ((0 : ℝ), (3 : ℝ))] 1 =
      ((4 : ℝ), (0 : ℝ)) from rfl,
    show getP [((0 : ℝ), (0 : ℝ)), ((4 : ℝ), (0 : ℝ)), ((0 : ℝ), (3 : ℝ))] 0 =
      ((0 : ℝ), (0 : ℝ)) from rfl,
    show getP [((0 : ℝ), (0 : ℝ)), ((4 : ℝ), (0 : ℝ)), ((0 : ℝ), (3 : ℝ))]
      (prevIdx [((0 : ℝ), (0 : ℝ)), ((4 : ℝ), (0 : ℝ)), ((0 : ℝ), (3 : ℝ))] 0) =
      ((0 : ℝ), (3 : ℝ)) from rfl,
    show getP [((0 : ℝ), (0 : ℝ)), ((4 : ℝ), (0 : ℝ)), ((0 : ℝ), (3 : ℝ))]
      ((1 + 1) % List.length [((0 : ℝ), (0 : ℝ)), ((4 : ℝ), (0 : ℝ)), ((0 : ℝ), (3 : ℝ))]) =
      ((0 : ℝ), (3 : ℝ)) from rfl,
    triangle_d2p1, show (4 : ℝ) + 4 = 8 by norm_num,
    triangle_cosA, neg_zero, triangle_A, if_pos triangle_cw]

/-! ### C1: continuity of consecutive fragments -/

/-- A unit vector with prescribed dot and cross products against a unit
reference vector is determined: pure algebra. -/
theorem vec_decomp (u1 u2 v1 v2 c s : ℝ) (hU : u1 ^ 2 + u2 ^ 2 = 1)
    (hdot : u1 * v1 + u2 * v2 = c) (hcross : u1 * v2 - u2 * v1 = -s) :
    v1 = u1 * c + u2 * s ∧ v2 = -u1 * s + u2 * c := by
  constructor
  · linear_combination u1 * hdot - u2 * hcross - v1 * hU
  · linear_combination u2 * hdot + u1 * hcross - v2 * hU

/-- Lagrange identity for planar unit vectors: the cross product squared
complements the dot product squared. -/
theorem cross_sq_of_units (u1 u2 v1 v2 c : ℝ) (hU : u1 ^ 2 + u2 ^ 2 = 1)
    (hV : v1 ^ 2 + v2 ^ 2 = 1) (hdot : u1 * v1 + u2 * v2 = c) :
    (u1 * v2 - u2 * v1) ^ 2 = 1 - c ^ 2 := by
  linear_combination (v1 ^ 2 + v2 ^ 2) * hU + hV - (u1 * v1 + u2 * v2 + c) * hdot

/-- When the target `T` lies (in the code's handedness) on the side selected
by `turn_and_scale`'s rotation, `point_on_the_ellipse` from focus `Z` with the
cosine of angle `D-Z-T` lands on the ray from `Z` through `T`, at the
focal-polar radius. -/
theorem point_on_ray (Z D T : Pt) (dd : ℝ) (hZD : 0 < distance Z D)
    (hZT : 0 < distance Z T) (ha : distance Z D < dd)
    (hh : crossp (D - Z) (T - Z) ≤ 0) :
    (Ellipse.mk' Z D dd).point_on_the_ellipse (three_point_cosine D Z T) (-1) =
      (Z.1 + ((dd / 2) ^ 2 - (distance Z D / 2) ^ 2) /
          (dd / 2 - distance Z D / 2 * three_point_cosine D Z T) *
          ((T.1 - Z.1) / distance Z T),
       Z.2 + ((dd / 2) ^ 2 - (distance Z D / 2) ^ 2) /
          (dd / 2 - distance Z D / 2 * three_point_cosine D Z T) *
          ((T.2 - Z.2) / distance Z T)) := by
  have hcos_le : three_point_cosine D Z T ≤ 1 := three_point_cosine_le_one D Z T
  have hcos_ge : -1 ≤ three_point_cosine D Z T := neg_one_le_three_point_cosine D Z T
  have hcabs : |three_point_cosine D Z T| ≤ 1 := abs_le.mpr ⟨hcos_ge, hcos_le⟩
  have hU := unit_vec_sq Z D hZD
  have hV := unit_vec_sq Z T hZT
  have hqne : distance Z D ≠ 0 := ne_of_gt hZD
  have hene : distance Z T ≠ 0 := ne_of_gt hZT
  have hdot : (D.1 - Z.1) / distance Z D * ((T.1 - Z.1) / distance Z T) +
      (D.2 - Z.2) / distance Z D * ((T.2 - Z.2) / distance Z T) =
      three_point_cosine D Z T := by
    unfold three_point_cosine dotp
    rw [distance_comm D Z, distance_comm T Z]
    simp only [Prod.fst_sub, Prod.snd_sub]
    field_simp
  have hs0 : 0 ≤ sin_from_cos (three_point_cosine D Z T) := Real.sqrt_nonneg _
  have hs2 := sin_from_cos_sq (three_point_cosine D Z T) hcabs
  have hxval : (D.1 - Z.1) / distance Z D * ((T.2 - Z.2) / distance Z T) -
      (D.2 - Z.2) / distance Z D * ((T.1 - Z.1) / distance Z T) =
      crossp (D - Z) (T - Z) / (distance Z D * distance Z T) := by
    unfold crossp
    simp only [Prod.fst_sub, Prod.snd_sub]
    field_simp
  have hxle : (D.1 - Z.1) / distance Z D * ((T.2 - Z.2) / distance Z T) -
      (D.2 - Z.2) / distance Z D * ((T.1 - Z.1) / distance Z T) ≤ 0 := by
    rw [hxval]
    exact div_nonpos_of_nonpos_of_nonneg hh (by positivity)
  have hxsq := cross_sq_of_units ((D.1 - Z.1) / distance Z D) ((D.2 - Z.2) / distance Z D)
    ((T.1 - Z.1) / distance Z T) ((T.2 - Z.2) / distance Z T)
    (three_point_cosine D Z T) hU hV hdot
  have hcross : (D.1 - Z.1) / distance Z D * ((T.2 - Z.2) / distance Z T) -
      (D.2 - Z.2) / distance Z D * ((T.1 - Z.1) / distance Z T) =
      -(sin_from_cos (three_point_cosine D Z T)) := by
    have hprod : ((D.1 - Z.1) / distance Z D * ((T.2 - Z.2) / distance Z T) -
        (D.2 - Z.2) / distance Z D * ((T.1 - Z.1) / distance Z T) +
        sin_from_cos (three_point_cosine D Z T)) *
        ((D.1 - Z.1) / distance Z D * ((T.2 - Z.2) / distance Z T) -
        (D.2 - Z.2) / distance Z D * ((T.1 - Z.1) / distance Z T) -
        sin_from_cos (three_point_cosine D Z T)) = 0 := by
      nlinarith [hxsq, hs2]
    rcases mul_eq_zero.mp hprod with h | h
    · linarith
    · linarith
  obtain ⟨hv1, hv2⟩ := vec_decomp ((D.1 - Z.1) / distance Z D) ((D.2 - Z.2) / distance Z D)
    ((T.1 - Z.1) / distance Z T) ((T.2 - Z.2) / distance Z T)
    (three_point_cosine D Z T) (sin_from_cos (three_point_cosine D Z T)) hU hdot hcross
  rw [point_on_the_ellipse_neg1, mk'_F1, mk'_F2, mk'_a, mk'_c,
    mk'_b_sq Z D dd (le_of_lt ha) (distance_nonneg Z D)]
  unfold turn_and_scale
  simp only
  rw [Prod.mk.injEq]
  constructor
  · rw [hv1]
    ring
  · rw [hv2]
    ring

/-- The fragment emitted by a walk step inherits its left limit from the
state (`A` of the drawn fragment is the walk's previous endpoint). -/
theorem walkStep_frag_A (P : List Pt) (s : WalkState) : (walkStep P s).1.A = s.A := by
  rw [walkStep_eq]
  split <;> rfl

/-- `A = B`: the next state's previous-endpoint is the emitted fragment's
right limit, in both branches. -/
theorem walkStep_state_A (P : List Pt) (s : WalkState) :
    (walkStep P s).2.A = (walkStep P s).1.B := by
  rw [walkStep_eq]
  split <;> rfl

/-- Appending a fragment whose `A` matches the last `B` preserves the chain
property. -/
theorem chained_append (acc : List Fragment) (f : Fragment) (hch : chained acc)
    (hlink : ∀ h : acc ≠ [], (acc.getLast h).B = f.A) : chained (acc ++ [f]) := by
  intro i h
  have hlen : (acc ++ [f]).length = acc.length + 1 := by simp
  rw [hlen] at h
  rcases Nat.lt_or_ge (i + 1) acc.length with h1 | h1
  · have hi : i < acc.length := by omega
    rw [List.get_eq_getElem, List.get_eq_getElem,
      List.getElem_append_left h1, List.getElem_append_left hi]
    have hc := hch i h1
    rwa [List.get_eq_getElem, List.get_eq_getElem] at hc
  · have hi1 : i + 1 = acc.length := by omega
    have hiA : i < acc.length := by omega
    have hine : acc ≠ [] := by
      intro hnil
      rw [hnil] at hi1
      simp at hi1
    rw [List.get_eq_getElem, List.get_eq_getElem,
      List.getElem_append_left hiA,
      List.getElem_append_right (by omega : acc.length ≤ i + 1)]
    have hlast := hlink hine
    rw [acc.getLast_eq_getElem hine] at hlast
    have hzero : i + 1 - acc.length = 0 := by omega
    simp only [hzero, List.getElem_cons_zero]
    have hsw : acc.get ⟨i, hiA⟩ = acc.get ⟨acc.length - 1, by omega⟩ := by
      apply congrArg
      apply Fin.ext
      simp only [Fin.val_mk]
      omega
    rw [List.get_eq_getElem, List.get_eq_getElem] at hsw
    rw [hsw]
    exact hlast.symm

/-- The main walk loop preserves the chain property of the accumulated
fragment list. -/
theorem walkLoop_chained (P : List Pt) :
    ∀ (fuel : ℕ) (s : WalkState) (acc frags : List Fragment),
      chained acc → (∀ h : acc ≠ [], (acc.getLast h).B = s.A) →
      walkLoop P fuel s acc = some frags → chained frags := by
  intro fuel
  induction fuel with
  | zero =>
    intro s acc frags hch hlink hrun
    unfold walkLoop at hrun
    by_cases hdone : walkDone s
    · rw [if_pos hdone] at hrun
      obtain rfl := Option.some.inj hrun
      exact hch
    · rw [if_neg hdone] at hrun
      exact absurd hrun (by simp)
  | succ m ih =>
    intro s acc frags hch hlink hrun
    unfold walkLoop at hrun
    by_cases hdone : walkDone s
    · rw [if_pos hdone] at hrun
      obtain rfl := Option.some.inj hrun
      exact hch
    · rw [if_neg hdone] at hrun
      simp only at hrun
      refine ih (walkStep P s).2 (acc ++ [(walkStep P s).1]) frags ?_ ?_ hrun
      · refine chained_append acc _ hch ?_
        intro hne
        rw [walkStep_frag_A]
        exact hlink hne
      · intro hne
        rw [show (acc ++ [(walkStep P s).1]).getLast hne = (walkStep P s).1 by simp,
          walkStep_state_A]

theorem sin_from_cos_neg (c : ℝ) : sin_from_cos (-c) = sin_from_cos c := by
  unfold sin_from_cos
  simp [neg_sq]

/-- Opposite-handedness variant of `point_on_ray`: with the negated cosine of
angle `D-Z-T` and `T` on the other side, the point lands on the ray from `Z`
directly away from `T`. -/
theorem point_on_ray_opp (Z D T : Pt) (dd : ℝ) (hZD : 0 < distance Z D)
    (hZT : 0 < distance Z T) (ha : distance Z D < dd)
    (hh : 0 ≤ crossp (D - Z) (T - Z)) :
    (Ellipse.mk' Z D dd).point_on_the_ellipse (-(three_point_cosine D Z T)) (-1) =
      (Z.1 - ((dd / 2) ^ 2 - (distance Z D / 2) ^ 2) /
          (dd / 2 + distance Z D / 2 * three_point_cosine D Z T) *
          ((T.1 - Z.1) / distance Z T),
       Z.2 - ((dd / 2) ^ 2 - (distance Z D / 2) ^ 2) /
          (dd / 2 + distance Z D / 2 * three_point_cosine D Z T) *
          ((T.2 - Z.2) / distance Z T)) := by
  have hcos_le : three_point_cosine D Z T ≤ 1 := three_point_cosine_le_one D Z T
  have hcos_ge : -1 ≤ three_point_cosine D Z T := neg_one_le_three_point_cosine D Z T
  have hcabs : |three_point_cosine D Z T| ≤ 1 := abs_le.mpr ⟨hcos_ge, hcos_le⟩
  have hU := unit_vec_sq Z D hZD
  have hV := unit_vec_sq Z T hZT
  have hqne : distance Z D ≠ 0 := ne_of_gt hZD
  have hene : distance Z T ≠ 0 := ne_of_gt hZT
  have hdot : (D.1 - Z.1) / distance Z D * ((T.1 - Z.1) / distance Z T) +
      (D.2 - Z.2) / distance Z D * ((T.2 - Z.2) / distance Z T) =
      three_point_cosine D Z T := by
    unfold three_point_cosine dotp
    rw [distance_comm D Z, distance_comm T Z]
    simp only [Prod.fst_sub, Prod.snd_sub]
    field_simp
  have hs0 : 0 ≤ sin_from_cos (three_point_cosine D Z T) := Real.sqrt_nonneg _
  have hs2 := sin_from_cos_sq (three_point_cosine D Z T) hcabs
  have hxval : (D.1 - Z.1) / distance Z D * ((T.2 - Z.2) / distance Z T) -
      (D.2 - Z.2) / distance Z D * ((T.1 - Z.1) / distance Z T) =
      crossp (D - Z) (T - Z) / (distance Z D * distance Z T) := by
    unfold crossp
    simp only [Prod.fst_sub, Prod.snd_sub]
    field_simp
  have hxge : 0 ≤ (D.1 - Z.1) / distance Z D * ((T.2 - Z.2) / distance Z T) -
      (D.2 - Z.2) / distance Z D * ((T.1 - Z.1) / distance Z T) := by
    rw [hxval]
    exact div_nonneg hh (by positivity)
  have hxsq := cross_sq_of_units ((D.1 - Z.1) / distance Z D) ((D.2 - Z.2) / distance Z D)
    ((T.1 - Z.1) / distance Z T) ((T.2 - Z.2) / distance Z T)
    (three_point_cosine D Z T) hU hV hdot
  have hcross_x : (D.1 - Z.1) / distance Z D * ((T.2 - Z.2) / distance Z T) -
      (D.2 - Z.2) / distance Z D * ((T.1 - Z.1) / distance Z T) =
      sin_from_cos (three_point_cosine D Z T) := by
    have hprod : ((D.1 - Z.1) / distance Z D * ((T.2 - Z.2) / distance Z T) -
        (D.2 - Z.2) / distance Z D * ((T.1 - Z.1) / distance Z T) +
        sin_from_cos (three_point_cosine D Z T)) *
        ((D.1 - Z.1) / distance Z D * ((T.2 - Z.2) / distance Z T) -
        (D.2 - Z.2) / distance Z D * ((T.1 - Z.1) / distance Z T) -
        sin_from_cos (three_point_cosine D Z T)) = 0 := by
      nlinarith [hxsq, hs2]
    rcases mul_eq_zero.mp hprod with h | h
    · linarith
    · linarith
  have hdot' : (D.1 - Z.1) / distance Z D * (-((T.1 - Z.1) / distance Z T)) +
      (D.2 - Z.2) / distance Z D * (-((T.2 - Z.2) / distance Z T)) =
      -(three_point_cosine D Z T) := by
    linear_combination -hdot
  have hcross' : (D.1 - Z.1) / distance Z D * (-((T.2 - Z.2) / distance Z T)) -
      (D.2 - Z.2) / distance Z D * (-((T.1 - Z.1) / distance Z T)) =
      -(sin_from_cos (three_point_cosine D Z T)) := by
    linear_combination -hcross_x
  obtain ⟨hv1, hv2⟩ := vec_decomp ((D.1 - Z.1) / distance Z D) ((D.2 - Z.2) / distance Z D)
    (-((T.1 - Z.1) / distance Z T)) (-((T.2 - Z.2) / distance Z T))
    (-(three_point_cosine D Z T)) (sin_from_cos (three_point_cosine D Z T)) hU hdot' hcross'
  rw [point_on_the_ellipse_neg1, mk'_F1, mk'_F2, mk'_a, mk'_c,
    mk'_b_sq Z D dd (le_of_lt ha) (distance_nonneg Z D)]
  unfold turn_and_scale
  simp only
  rw [sin_from_cos_neg, Prod.mk.injEq]
  constructor
  · rw [← hv1]
    ring
  · rw [← hv2]
    ring

/-- The focal-polar radius at the closing step exceeds the bootstrap radius by
exactly the skipped edge `|QO|`: the algebraic heart of the loop closure. -/
theorem rho_shift (Q O R : Pt) (d₀ : ℝ)
    (hQO : 0 < distance Q O) (hQR : 0 < distance Q R) (hOR : 0 < distance O R)
    (haO : distance O R < d₀) (haQ : distance Q R < d₀ + distance Q O) :
    (((d₀ + distance Q O) / 2) ^ 2 - (distance Q R / 2) ^ 2) /
        ((d₀ + distance Q O) / 2 - distance Q R / 2 * three_point_cosine R Q O) =
      ((d₀ / 2) ^ 2 - (distance O R / 2) ^ 2) /
          (d₀ / 2 + distance O R / 2 * three_point_cosine R O Q) + distance Q O := by
  have hcosL : three_point_cosine R Q O * (distance Q R * distance Q O) =
      dotp (R - Q) (O - Q) := by
    unfold three_point_cosine
    rw [distance_comm R Q, distance_comm O Q]
    exact div_mul_cancel₀ _ (mul_pos hQR hQO).ne'
  have hcosO : three_point_cosine R O Q * (distance O R * distance Q O) =
      dotp (R - O) (Q - O) := by
    unfold three_point_cosine
    rw [distance_comm R O]
    exact div_mul_cancel₀ _ (mul_pos hOR hQO).ne'
  have huv : dotp (R - Q) (O - Q) = -(dotp (R - O) (Q - O)) + distance Q O ^ 2 := by
    have hd := distance_sq Q O
    unfold dotp
    simp only [Prod.fst_sub, Prod.snd_sub]
    linear_combination -hd
  have hqq : distance Q R ^ 2 - distance O R ^ 2 =
      dotp (R - Q) (O - Q) - dotp (R - O) (Q - O) := by
    have h1 := distance_sq Q R
    have h2 := distance_sq O R
    unfold dotp
    simp only [Prod.fst_sub, Prod.snd_sub]
    linear_combination h1 - h2
  have hL_le : three_point_cosine R Q O ≤ 1 := three_point_cosine_le_one R Q O
  have hL_ge : -1 ≤ three_point_cosine R Q O := neg_one_le_three_point_cosine R Q O
  have hO_le : three_point_cosine R O Q ≤ 1 := three_point_cosine_le_one R O Q
  have hO_ge : -1 ≤ three_point_cosine R O Q := neg_one_le_three_point_cosine R O Q
  have hDOpos : 0 < d₀ / 2 + distance O R / 2 * three_point_cosine R O Q := by
    nlinarith [hO_ge, hOR, haO]
  have hDD : (d₀ + distance Q O) / 2 - distance Q R / 2 * three_point_cosine R Q O =
      d₀ / 2 + distance O R / 2 * three_point_cosine R O Q := by
    have h2e : (2 * distance Q O) ≠ 0 := ne_of_gt (by linarith)
    apply mul_left_cancel₀ h2e
    linear_combination (-1 : ℝ) * hcosL - hcosO - huv
  have hNN : ((d₀ + distance Q O) / 2) ^ 2 - (distance Q R / 2) ^ 2 =
      ((d₀ / 2) ^ 2 - (distance O R / 2) ^ 2) +
        distance Q O * (d₀ / 2 + distance O R / 2 * three_point_cosine R O Q) := by
    linear_combination (-1 / 4 : ℝ) * huv - (1 / 4 : ℝ) * hqq - (1 / 2 : ℝ) * hcosO
  rw [hDD, hNN, add_div, mul_div_assoc, div_self (ne_of_gt hDOpos), mul_one]

/-- Loop closure: when the walk returns to the bootstrap window (`Q` is the
last focus `P[n-1]`, `O = P[0]`, `R` the shared leading focus, and the rope
budget of the closing step exceeds the bootstrap budget `d₀` by the edge
`|QO|`), the code's closing `A2` formula and its bootstrap `A` formula
produce the same point. -/
theorem wrap_closure (Q O R : Pt) (d₀ : ℝ)
    (hQO : 0 < distance Q O) (hQR : 0 < distance Q R) (hOR : 0 < distance O R)
    (haO : distance O R < d₀) (haQ : distance Q R < d₀ + distance Q O)
    (hhQ : crossp (R - Q) (O - Q) ≤ 0) (hhO : 0 ≤ crossp (R - O) (Q - O)) :
    (Ellipse.mk' Q R (d₀ + distance Q O)).point_on_the_ellipse
        (three_point_cosine R Q O) (-1) =
      (Ellipse.mk' O R d₀).point_on_the_ellipse (-(three_point_cosine R O Q)) (-1) := by
  rw [point_on_ray Q R O (d₀ + distance Q O) hQR hQO haQ hhQ,
    point_on_ray_opp O R Q d₀ hOR (by rwa [distance_comm]) haO hhO,
    distance_comm O Q]
  have hρ := rho_shift Q O R d₀ hQO hQR hOR haO haQ
  have hcan1 : (O.1 - Q.1) / distance Q O * distance Q O = O.1 - Q.1 :=
    div_mul_cancel₀ _ (ne_of_gt hQO)
  have hcan2 : (O.2 - Q.2) / distance Q O * distance Q O = O.2 - Q.2 :=
    div_mul_cancel₀ _ (ne_of_gt hQO)
  rw [Prod.mk.injEq]
  constructor
  · linear_combination ((O.1 - Q.1) / distance Q O) * hρ + hcan1
  · linear_combination ((O.2 - Q.2) / distance Q O) * hρ + hcan2

/-- The fragment list returned by `draw_with_slack` is chained. -/
theorem draw_chained (P : List Pt) (slack : ℝ) (fuel : ℕ) (frags : List Fragment)
    (h : draw_with_slack P slack fuel = some frags) : chained frags := by
  unfold draw_with_slack at h
  cases hb : bootstrap P fuel 1 slack with
  | none =>
    rw [hb] at h
    exact absurd h (by simp)
  | some t =>
    obtain ⟨r, d, A⟩ := t
    rw [hb] at h
    refine walkLoop_chained P fuel { l := 0, l_next := 1, r := r, d := d, A := A } [] frags
      ?_ ?_ h
    · intro i hi
      simp at hi
    · intro hne
      exact absurd rfl hne

/-- C1: every pair of consecutive fragments emitted by `draw_with_slack`
shares an endpoint exactly (`fragment[i+1].A = fragment[i].B`, by the `A = B`
assignment); and for the cyclic wrap-around pair, whenever the walk closes
back onto the bootstrap window — `Q = P[n-1]`, `O = P[0]`, `R` the common
leading focus, the closing rope budget exceeding the bootstrap budget `d₀` by
the edge `|QO|`, with the handedness of a valid input (the two cross-product
conditions) — the last fragment's `B` (the code's closing `A2` formula)
equals the first fragment's `A` (the code's bootstrap formula), exactly. -/
theorem C1_continuity :
    (∀ (P : List Pt) (slack : ℝ) (fuel : ℕ) (frags : List Fragment),
        draw_with_slack P slack fuel = some frags → chained frags) ∧
      (∀ (Q O R : Pt) (d₀ : ℝ),
        0 < distance Q O → 0 < distance Q R → 0 < distance O R →
        distance O R < d₀ → distance Q R < d₀ + distance Q O →
        crossp (R - Q) (O - Q) ≤ 0 → 0 ≤ crossp (R - O) (Q - O) →
        (Ellipse.mk' Q R (d₀ + distance Q O)).point_on_the_ellipse
            (three_point_cosine R Q O) (-1) =
          (Ellipse.mk' O R d₀).point_on_the_ellipse
            (-(three_point_cosine R O Q)) (-1)) :=
  ⟨draw_chained, fun Q O R d₀ h1 h2 h3 h4 h5 h6 h7 =>
    wrap_closure Q O R d₀ h1 h2 h3 h4 h5 h6 h7⟩

/-- C1 witness: the wrap-around endpoint identity evaluated on scenario A's
closing step: `Q = (500,700)`, `O = (400,500)`, `R = (600,400)`, bootstrap
budget `d₀ = 250 + |P₀P₁|`. -/
theorem C1_continuity_witness :
    (Ellipse.mk' ((500 : ℝ), (700 : ℝ)) ((600 : ℝ), (400 : ℝ))
        ((250 + distance ((400 : ℝ), (500 : ℝ)) ((600 : ℝ), (400 : ℝ))) +
          distance ((500 : ℝ), (700 : ℝ)) ((400 : ℝ), (500 : ℝ)))).point_on_the_ellipse
        (three_point_cosine ((600 : ℝ), (400 : ℝ)) ((500 : ℝ), (700 : ℝ))
          ((400 : ℝ), (500 : ℝ))) (-1) =
      (Ellipse.mk' ((400 : ℝ), (500 : ℝ)) ((600 : ℝ), (400 : ℝ))
          (250 + distance ((400 : ℝ), (500 : ℝ)) ((600 : ℝ), (400 : ℝ)))).point_on_the_ellipse
        (-(three_point_cosine ((600 : ℝ), (400 : ℝ)) ((400 : ℝ), (500 : ℝ))
          ((500 : ℝ), (700 : ℝ)))) (-1) := by
  have hQO : (0 : ℝ) < distance ((500 : ℝ), (700 : ℝ)) ((400 : ℝ), (500 : ℝ)) := by
    unfold distance
    exact Real.sqrt_pos.mpr (by norm_num)
  have hQR : (0 : ℝ) < distance ((500 : ℝ), (700 : ℝ)) ((600 : ℝ), (400 : ℝ)) := by
    unfold distance
    exact Real.sqrt_pos.mpr (by norm_num)
  have hOR : (0 : ℝ) < distance ((400 : ℝ), (500 : ℝ)) ((600 : ℝ), (400 : ℝ)) := by
    unfold distance
    exact Real.sqrt_pos.mpr (by norm_num)
  have hv1 : distance ((500 : ℝ), (700 : ℝ)) ((600 : ℝ), (400 : ℝ)) = Real.sqrt 100000 := by
    unfold distance
    norm_num
  have hv2 : distance ((400 : ℝ), (500 : ℝ)) ((600 : ℝ), (400 : ℝ)) = Real.sqrt 50000 := by
    unfold distance
    norm_num
  have hv3 : distance ((500 : ℝ), (700 : ℝ)) ((400 : ℝ), (500 : ℝ)) = Real.sqrt 50000 := by
    unfold distance
    norm_num
  refine C1_continuity.2 ((500 : ℝ), (700 : ℝ)) ((400 : ℝ), (500 : ℝ))
    ((600 : ℝ), (400 : ℝ))
    (250 + distance ((400 : ℝ), (500 : ℝ)) ((600 : ℝ), (400 : ℝ)))
    hQO hQR hOR (by linarith) ?_ ?_ ?_
  · rw [hv1, hv2, hv3]
    nlinarith [Real.sq_sqrt (show (0 : ℝ) ≤ 100000 by norm_num),
      Real.sq_sqrt (show (0 : ℝ) ≤ 50000 by norm_num),
      Real.sqrt_nonneg (100000 : ℝ), Real.sqrt_nonneg (50000 : ℝ)]
  · unfold crossp
    norm_num
  · unfold crossp
    norm_num

/-! ### C8: scenario A produces exactly 6 fragments -/

/-- Unfolding one main-walk iteration. -/
theorem walkLoop_cons (P : List Pt) (fuel : ℕ) (s : WalkState) (acc : List Fragment)
    (hnd : ¬ walkDone s) :
    walkLoop P (fuel + 1) s acc =
      walkLoop P fuel (walkStep P s).2 (acc ++ [(walkStep P s).1]) := by
  conv_lhs => unfold walkLoop
  rw [if_neg hnd]

/-- The walk loop exits immediately once the loop condition is false. -/
theorem walkLoop_done (P : List Pt) (fuel : ℕ) (s : WalkState) (acc : List Fragment)
    (hd : walkDone s) : walkLoop P fuel s acc = some acc := by
  cases fuel <;> (unfold walkLoop; rw [if_pos hd])

/-- The number of emitted fragments does not depend on the previous endpoint
`A` carried in the state, nor on the contents of the accumulator. -/
theorem walkLoop_length_eq (P : List Pt) :
    ∀ (fuel : ℕ) (s s' : WalkState) (acc acc' : List Fragment),
      s.l = s'.l → s.l_next = s'.l_next → s.r = s'.r → s.d = s'.d →
      acc.length = acc'.length →
      Option.map List.length (walkLoop P fuel s acc) =
        Option.map List.length (walkLoop P fuel s' acc') := by
  intro fuel
  induction fuel with
  | zero =>
    intro s s' acc acc' h1 h2 h3 h4 h5
    obtain ⟨l, ln, r, d, A⟩ := s
    obtain ⟨l', ln', r', d', A'⟩ := s'
    simp only at h1 h2 h3 h4
    subst h1
    subst h2
    subst h3
    subst h4
    unfold walkLoop
    by_cases hd : walkDone ⟨l, ln, r, d, A⟩
    · rw [if_pos hd, if_pos (by exact hd)]
      simp [h5]
    · rw [if_neg hd, if_neg (by exact hd)]
  | succ m ih =>
    intro s s' acc acc' h1 h2 h3 h4 h5
    obtain ⟨l, ln, r, d, A⟩ := s
    obtain ⟨l', ln', r', d', A'⟩ := s'
    simp only at h1 h2 h3 h4
    subst h1
    subst h2
    subst h3
    subst h4
    unfold walkLoop
    by_cases hd : walkDone ⟨l, ln, r, d, A⟩
    · rw [if_pos hd, if_pos (by exact hd)]
      simp [h5]
    · rw [if_neg hd, if_neg (by exact hd)]
      simp only
      rw [walkStep_eq, walkStep_eq]
      simp only
      by_cases hbr : three_point_cosine (getP P r) (getP P l) (getP P ((l + 1) % P.length)) <
          three_point_cosine
            ((Ellipse.mk' (getP P l) (getP P r) d).point_on_the_ellipse
              (three_point_cosine (getP P l) (getP P r)
                (getP P ((r + 1) % P.length))) 1)
            (getP P l) (getP P r)
      · rw [if_pos hbr, if_pos hbr]
        refine ih _ _ _ _ rfl rfl rfl rfl ?_
        simp [h5]
      · rw [if_neg hbr, if_neg hbr]
        refine ih _ _ _ _ rfl rfl rfl rfl ?_
        simp [h5]

/-- The control-relevant fields after a `B`-branch step (`r` advances). -/
theorem walkStep_fields_B (P : List Pt) (l ln r : ℕ) (d : ℝ) (A : Pt)
    (hcond : ¬ (three_point_cosine (getP P r) (getP P l) (getP P ((l + 1) % P.length)) <
      three_point_cosine
        ((Ellipse.mk' (getP P l) (getP P r) d).point_on_the_ellipse
          (three_point_cosine (getP P l) (getP P r) (getP P ((r + 1) % P.length))) 1)
        (getP P l) (getP P r))) :
    (walkStep P { l := l, l_next := ln, r := r, d := d, A := A }).2.l = l ∧
      (walkStep P { l := l, l_next := ln, r := r, d := d, A := A }).2.l_next =
        (l + 1) % P.length ∧
      (walkStep P { l := l, l_next := ln, r := r, d := d, A := A }).2.r =
        (r + 1) % P.length ∧
      (walkStep P { l := l, l_next := ln, r := r, d := d, A := A }).2.d =
        d + dist_2_prev P ((r + 1) % P.length) := by
  rw [walkStep_eq]
  simp only
  rw [if_neg hcond]
  exact ⟨rfl, rfl, rfl, rfl⟩

/-- The control-relevant fields after an `A2`-branch step (`l` advances). -/
theorem walkStep_fields_A2 (P : List Pt) (l ln r : ℕ) (d : ℝ) (A : Pt)
    (hcond : three_point_cosine (getP P r) (getP P l) (getP P ((l + 1) % P.length)) <
      three_point_cosine
        ((Ellipse.mk' (getP P l) (getP P r) d).point_on_the_ellipse
          (three_point_cosine (getP P l) (getP P r) (getP P ((r + 1) % P.length))) 1)
        (getP P l) (getP P r)) :
    (walkStep P { l := l, l_next := ln, r := r, d := d, A := A }).2.l =
        (l + 1) % P.length ∧
      (walkStep P { l := l, l_next := ln, r := r, d := d, A := A }).2.l_next =
        (l + 1) % P.length ∧
      (walkStep P { l := l, l_next := ln, r := r, d := d, A := A }).2.r = r ∧
      (walkStep P { l := l, l_next := ln, r := r, d := d, A := A }).2.d =
        d - dist_2_prev P ((l + 1) % P.length) := by
  rw [walkStep_eq]
  simp only
  rw [if_pos hcond]
  exact ⟨rfl, rfl, rfl, rfl⟩

/-- The cosine of the zero angle between a leg and itself is `1`. -/
theorem tpc_self (X Y : Pt) (h : 0 < distance X Y) : three_point_cosine Y X Y = 1 := by
  unfold three_point_cosine
  rw [distance_comm Y X]
  have hd := distance_sq X Y
  have hdot : dotp (Y - X) (Y - X) = distance X Y ^ 2 := by
    unfold dotp
    simp only [Prod.fst_sub, Prod.snd_sub]
    linarith [hd]
  rw [hdot, ← pow_two]
  exact div_self (by positivity)

/-- The candidate `B` computed with `cos_for_B = 1` re-expresses to cosine `1`
relative to the other focus: the arm `F1 → B` passes straight over `F2`. -/
theorem cosBrel_eq_one (F1 F2 : Pt) (d : ℝ) (h0 : 0 < distance F1 F2)
    (hd : distance F1 F2 < d) :
    three_point_cosine ((Ellipse.mk' F1 F2 d).point_on_the_ellipse 1 1) F1 F2 = 1 := by
  have hq0 : 0 < distance F2 F1 := by rwa [distance_comm]
  have habs1 : |(1 : ℝ)| ≤ 1 := by norm_num
  have hb2 := mk'_b_sq F1 F2 d (le_of_lt hd) (le_of_lt h0)
  rw [point_on_the_ellipse_pos1, mk'_F1, mk'_F2, mk'_a, mk'_c, hb2]
  have hρpos : 0 < ((d / 2) ^ 2 - (distance F1 F2 / 2) ^ 2) /
      (d / 2 + 1 * (distance F1 F2 / 2) * 1) := by
    apply div_pos (by nlinarith) (by nlinarith)
  have hwneg : -1 * (((d / 2) ^ 2 - (distance F1 F2 / 2) ^ 2) /
      (d / 2 + 1 * (distance F1 F2 / 2) * 1)) < 0 := by nlinarith
  have hd2 := turn_and_scale_dist_ref_sq F2 F1 1
    (-1 * (((d / 2) ^ 2 - (distance F1 F2 / 2) ^ 2) /
      (d / 2 + 1 * (distance F1 F2 / 2) * 1))) habs1 hq0
  rw [distance_comm F2 F1] at hd2
  have hBF1 : distance (turn_and_scale F2 F1 1
      (-1 * (((d / 2) ^ 2 - (distance F1 F2 / 2) ^ 2) /
        (d / 2 + 1 * (distance F1 F2 / 2) * 1)))) F1 =
      distance F1 F2 - (-1 * (((d / 2) ^ 2 - (distance F1 F2 / 2) ^ 2) /
        (d / 2 + 1 * (distance F1 F2 / 2) * 1))) := by
    rw [show distance (turn_and_scale F2 F1 1
        (-1 * (((d / 2) ^ 2 - (distance F1 F2 / 2) ^ 2) /
          (d / 2 + 1 * (distance F1 F2 / 2) * 1)))) F1 =
        Real.sqrt (distance (turn_and_scale F2 F1 1
          (-1 * (((d / 2) ^ 2 - (distance F1 F2 / 2) ^ 2) /
            (d / 2 + 1 * (distance F1 F2 / 2) * 1)))) F1 ^ 2) from
      (Real.sqrt_sq (distance_nonneg _ _)).symm]
    rw [hd2]
    rw [show (-1 * (((d / 2) ^ 2 - (distance F1 F2 / 2) ^ 2) /
        (d / 2 + 1 * (distance F1 F2 / 2) * 1))) ^ 2 -
        2 * (-1 * (((d / 2) ^ 2 - (distance F1 F2 / 2) ^ 2) /
          (d / 2 + 1 * (distance F1 F2 / 2) * 1))) * distance F1 F2 * 1 +
        distance F1 F2 ^ 2 =
        (distance F1 F2 - (-1 * (((d / 2) ^ 2 - (distance F1 F2 / 2) ^ 2) /
          (d / 2 + 1 * (distance F1 F2 / 2) * 1)))) ^ 2 from by ring]
    exact Real.sqrt_sq (by nlinarith)
  have hdotp := turn_and_scale_dotp F2 F1 1
    (-1 * (((d / 2) ^ 2 - (distance F1 F2 / 2) ^ 2) /
      (d / 2 + 1 * (distance F1 F2 / 2) * 1))) hq0
  rw [distance_comm F2 F1] at hdotp
  have hsq := distance_sq F2 F1
  rw [distance_comm F2 F1] at hsq
  have hnum : dotp ((turn_and_scale F2 F1 1
      (-1 * (((d / 2) ^ 2 - (distance F1 F2 / 2) ^ 2) /
        (d / 2 + 1 * (distance F1 F2 / 2) * 1)))) - F1) (F2 - F1) =
      distance F1 F2 * (distance F1 F2 - (-1 * (((d / 2) ^ 2 - (distance F1 F2 / 2) ^ 2) /
        (d / 2 + 1 * (distance F1 F2 / 2) * 1)))) := by
    unfold dotp at hdotp ⊢
    simp only [Prod.fst_sub, Prod.snd_sub] at hdotp ⊢
    linear_combination -hdotp - hsq
  unfold three_point_cosine
  rw [hBF1, hnum]
  rw [mul_comm (distance F1 F2 - (-1 * (((d / 2) ^ 2 - (distance F1 F2 / 2) ^ 2) /
    (d / 2 + 1 * (distance F1 F2 / 2) * 1)))) (distance F2 F1), distance_comm F2 F1]
  exact div_self (by nlinarith)

theorem SA_hs1 : Real.sqrt 50000 ^ 2 = 50000 := Real.sq_sqrt (by norm_num)

theorem SA_hs2 : Real.sqrt 100000 ^ 2 = 100000 := Real.sq_sqrt (by norm_num)

theorem SA_s1_pos : 0 < Real.sqrt 50000 := Real.sqrt_pos.mpr (by norm_num)

theorem SA_s2_pos : 0 < Real.sqrt 100000 := Real.sqrt_pos.mpr (by norm_num)

theorem SA_s1_lt_300 : Real.sqrt 50000 < 300 := by
  nlinarith [SA_hs1, Real.sqrt_nonneg (50000 : ℝ), sq_nonneg (Real.sqrt 50000 - 300)]

theorem SA_s2_lt : Real.sqrt 100000 < 250 + Real.sqrt 50000 + Real.sqrt 50000 := by
  nlinarith [SA_hs1, SA_hs2, Real.sqrt_nonneg (50000 : ℝ), Real.sqrt_nonneg (100000 : ℝ)]

theorem SA_dist01 : distance (getP scenarioA 0) (getP scenarioA 1) = Real.sqrt 50000 := by
  rw [show getP scenarioA 0 = ((400 : ℝ), (500 : ℝ)) from rfl,
    show getP scenarioA 1 = ((600 : ℝ), (400 : ℝ)) from rfl]
  unfold distance
  norm_num

theorem SA_dist10 : distance (getP scenarioA 1) (getP scenarioA 0) = Real.sqrt 50000 := by
  rw [distance_comm]
  exact SA_dist01

theorem SA_dist02 : distance (getP scenarioA 0) (getP scenarioA 2) = Real.sqrt 50000 := by
  rw [show getP scenarioA 0 = ((400 : ℝ), (500 : ℝ)) from rfl,
    show getP scenarioA 2 = ((500 : ℝ), (700 : ℝ)) from rfl]
  unfold distance
  norm_num

theorem SA_dist20 : distance (getP scenarioA 2) (getP scenarioA 0) = Real.sqrt 50000 := by
  rw [distance_comm]
  exact SA_dist02

theorem SA_dist12 : distance (getP scenarioA 1) (getP scenarioA 2) = Real.sqrt 100000 := by
  rw [show getP scenarioA 1 = ((600 : ℝ), (400 : ℝ)) from rfl,
    show getP scenarioA 2 = ((500 : ℝ), (700 : ℝ)) from rfl]
  unfold distance
  norm_num

theorem SA_dist21 : distance (getP scenarioA 2) (getP scenarioA 1) = Real.sqrt 100000 := by
  rw [distance_comm]
  exact SA_dist12

theorem SA_d2p0 : dist_2_prev scenarioA 0 = Real.sqrt 50000 := by
  unfold dist_2_prev
  rw [show prevIdx scenarioA 0 = 2 from rfl]
  exact SA_dist02

theorem SA_d2p1 : dist_2_prev scenarioA 1 = Real.sqrt 50000 := by
  unfold dist_2_prev
  rw [show prevIdx scenarioA 1 = 0 from rfl]
  exact SA_dist10

theorem SA_d2p2 : dist_2_prev scenarioA 2 = Real.sqrt 100000 := by
  unfold dist_2_prev
  rw [show prevIdx scenarioA 2 = 1 from rfl]
  exact SA_dist21

theorem SA_distL01 : distance ((400 : ℝ), (500 : ℝ)) ((600 : ℝ), (400 : ℝ)) = Real.sqrt 50000 :=
  SA_dist01

theorem SA_b_sq :
    (Ellipse.mk' ((400 : ℝ), (500 : ℝ)) ((600 : ℝ), (400 : ℝ)) (250 + Real.sqrt 50000)).b ^ 2 =
      ((250 + Real.sqrt 50000) / 2) ^ 2 - (Real.sqrt 50000 / 2) ^ 2 := by
  rw [mk'_b_sq _ _ _ (by rw [SA_distL01]; linarith [Real.sqrt_nonneg (50000 : ℝ)])
    (distance_nonneg _ _), SA_distL01]

theorem SA_A :
    (Ellipse.mk' ((400 : ℝ), (500 : ℝ)) ((600 : ℝ), (400 : ℝ))
        (250 + Real.sqrt 50000)).point_on_the_ellipse 0 (-1) =
      (150 + 3 / 4 * Real.sqrt 50000, 3 / 2 * Real.sqrt 50000) := by
  have hs := SA_hs1
  have hne : Real.sqrt 50000 ≠ 0 := ne_of_gt SA_s1_pos
  have h250 : (250 : ℝ) + Real.sqrt 50000 ≠ 0 := by positivity
  rw [point_on_the_ellipse_neg1, mk'_F1, mk'_F2]
  unfold turn_and_scale
  simp only
  rw [SA_b_sq, mk'_a, mk'_c, SA_distL01, sin_from_cos_zero, Prod.mk.injEq]
  simp only [mul_zero, add_zero, mul_one, one_mul, neg_neg, zero_add]
  constructor
  · field_simp
    ring_nf
    linear_combination (200 - 12 * Real.sqrt 50000) * hs
  · field_simp
    ring_nf
    linear_combination (200 - 12 * Real.sqrt 50000) * hs

/-- The bootstrap loop exits on the iteration whose orientation test passes. -/
theorem bootstrap_exit (P : List Pt) (fuel r : ℕ) (d : ℝ)
    (h : clockwiseness_of_points
      ((Ellipse.mk' (getP P 0) (getP P r) (d + dist_2_prev P r)).point_on_the_ellipse
        (-(three_point_cosine (getP P r) (getP P 0) (getP P (prevIdx P 0)))) (-1))
      (getP P r) (getP P ((r + 1) % P.length)) = 1) :
    bootstrap P (fuel + 1) r d = some (r, d + dist_2_prev P r,
      (Ellipse.mk' (getP P 0) (getP P r) (d + dist_2_prev P r)).point_on_the_ellipse
        (-(three_point_cosine (getP P r) (getP P 0) (getP P (prevIdx P 0)))) (-1)) := by
  conv_lhs => unfold bootstrap
  simp only
  rw [if_pos h]

theorem SA_cosA :
    three_point_cosine (getP scenarioA 1) (getP scenarioA 0)
      (getP scenarioA (prevIdx scenarioA 0)) = 0 := by
  rw [show getP scenarioA 1 = ((600 : ℝ), (400 : ℝ)) from rfl,
    show getP scenarioA 0 = ((400 : ℝ), (500 : ℝ)) from rfl,
    show getP scenarioA (prevIdx scenarioA 0) = ((500 : ℝ), (700 : ℝ)) from rfl]
  unfold three_point_cosine dotp
  simp only [Prod.fst_sub, Prod.snd_sub]
  norm_num

/-- The candidate bootstrap point lies on the loop handedness side of the edge
`P[1] → P[2]` of scenario A. -/
theorem SA_cw :
    clockwiseness_of_points
      ((150 : ℝ) + 3 / 4 * Real.sqrt 50000, (3 : ℝ) / 2 * Real.sqrt 50000)
      ((600 : ℝ), (400 : ℝ)) ((500 : ℝ), (700 : ℝ)) = 1 := by
  have hc : crossp
      (((600 : ℝ), (400 : ℝ)) - ((150 : ℝ) + 3 / 4 * Real.sqrt 50000, (3 : ℝ) / 2 * Real.sqrt 50000))
      (((500 : ℝ), (700 : ℝ)) - ((150 : ℝ) + 3 / 4 * Real.sqrt 50000, (3 : ℝ) / 2 * Real.sqrt 50000)) =
      175000 - 375 * Real.sqrt 50000 := by
    unfold crossp
    simp only [Prod.fst_sub, Prod.snd_sub]
    ring
  have hpos : (0 : ℝ) < 175000 - 375 * Real.sqrt 50000 := by linarith [SA_s1_lt_300]
  unfold clockwiseness_of_points
  rw [hc, abs_of_pos hpos]
  exact Real.sign_of_pos hpos

/-- The bootstrap on scenario A with slack `250` exits on its first iteration
with `r = 1`, `d = 250 + √50000` and the computed left limit point. -/
theorem SA_bootstrap :
    bootstrap scenarioA 10 1 250 = some (1, 250 + Real.sqrt 50000,
      ((150 : ℝ) + 3 / 4 * Real.sqrt 50000, (3 : ℝ) / 2 * Real.sqrt 50000)) := by
  have hA : (Ellipse.mk' (getP scenarioA 0) (getP scenarioA 1)
      ((250 : ℝ) + dist_2_prev scenarioA 1)).point_on_the_ellipse
      (-(three_point_cosine (getP scenarioA 1) (getP scenarioA 0)
        (getP scenarioA (prevIdx scenarioA 0)))) (-1) =
      ((150 : ℝ) + 3 / 4 * Real.sqrt 50000, (3 : ℝ) / 2 * Real.sqrt 50000) := by
    rw [SA_cosA, neg_zero, SA_d2p1,
      show getP scenarioA 0 = ((400 : ℝ), (500 : ℝ)) from rfl,
      show getP scenarioA 1 = ((600 : ℝ), (400 : ℝ)) from rfl]
    exact SA_A
  have h : clockwiseness_of_points
      ((Ellipse.mk' (getP scenarioA 0) (getP scenarioA 1)
        ((250 : ℝ) + dist_2_prev scenarioA 1)).point_on_the_ellipse
        (-(three_point_cosine (getP scenarioA 1) (getP scenarioA 0)
          (getP scenarioA (prevIdx scenarioA 0)))) (-1))
      (getP scenarioA 1) (getP scenarioA ((1 + 1) % scenarioA.length)) = 1 := by
    rw [hA, show getP scenarioA 1 = ((600 : ℝ), (400 : ℝ)) from rfl,
      show getP scenarioA ((1 + 1) % scenarioA.length) = ((500 : ℝ), (700 : ℝ)) from rfl]
    exact SA_cw
  rw [show (10 : ℕ) = 9 + 1 from rfl, bootstrap_exit scenarioA 9 1 250 h, hA, SA_d2p1]

theorem SA_cos201 :
    three_point_cosine (getP scenarioA 2) (getP scenarioA 0)
      (getP scenarioA ((0 + 1) % scenarioA.length)) = 0 := by
  rw [show getP scenarioA 2 = ((500 : ℝ), (700 : ℝ)) from rfl,
    show getP scenarioA 0 = ((400 : ℝ), (500 : ℝ)) from rfl,
    show getP scenarioA ((0 + 1) % scenarioA.length) = ((600 : ℝ), (400 : ℝ)) from rfl]
  unfold three_point_cosine dotp
  simp only [Prod.fst_sub, Prod.snd_sub]
  norm_num

theorem SA_cos012_lt1 :
    three_point_cosine (getP scenarioA 0) (getP scenarioA 1)
      (getP scenarioA ((1 + 1) % scenarioA.length)) < 1 := by
  unfold three_point_cosine
  rw [show getP scenarioA ((1 + 1) % scenarioA.length) = getP scenarioA 2 from rfl]
  have hdot : dotp (getP scenarioA 0 - getP scenarioA 1) (getP scenarioA 2 - getP scenarioA 1) =
      50000 := by
    rw [show getP scenarioA 0 = ((400 : ℝ), (500 : ℝ)) from rfl,
      show getP scenarioA 1 = ((600 : ℝ), (400 : ℝ)) from rfl,
      show getP scenarioA 2 = ((500 : ℝ), (700 : ℝ)) from rfl]
    unfold dotp
    simp only [Prod.fst_sub, Prod.snd_sub]
    norm_num
  rw [hdot, SA_dist01, SA_dist21, div_lt_one (mul_pos SA_s1_pos SA_s2_pos)]
  have hp : (Real.sqrt 50000 * Real.sqrt 100000) ^ 2 = 5000000000 := by
    rw [mul_pow, SA_hs1, SA_hs2]
    norm_num
  nlinarith [hp, mul_pos SA_s1_pos SA_s2_pos]

theorem SA_cos120_lt1 :
    three_point_cosine (getP scenarioA 1) (getP scenarioA 2)
      (getP scenarioA ((2 + 1) % scenarioA.length)) < 1 := by
  unfold three_point_cosine
  rw [show getP scenarioA ((2 + 1) % scenarioA.length) = getP scenarioA 0 from rfl]
  have hdot : dotp (getP scenarioA 1 - getP scenarioA 2) (getP scenarioA 0 - getP scenarioA 2) =
      50000 := by
    rw [show getP scenarioA 0 = ((400 : ℝ), (500 : ℝ)) from rfl,
      show getP scenarioA 1 = ((600 : ℝ), (400 : ℝ)) from rfl,
      show getP scenarioA 2 = ((500 : ℝ), (700 : ℝ)) from rfl]
    unfold dotp
    simp only [Prod.fst_sub, Prod.snd_sub]
    norm_num
  rw [hdot, SA_dist12, SA_dist02, div_lt_one (mul_pos SA_s2_pos SA_s1_pos)]
  have hp : (Real.sqrt 100000 * Real.sqrt 50000) ^ 2 = 5000000000 := by
    rw [mul_pow, SA_hs1, SA_hs2]
    norm_num
  nlinarith [hp, mul_pos SA_s2_pos SA_s1_pos]

theorem SA_br1 :
    ¬ (three_point_cosine (getP scenarioA 1) (getP scenarioA 0)
        (getP scenarioA ((0 + 1) % scenarioA.length)) <
      three_point_cosine
        ((Ellipse.mk' (getP scenarioA 0) (getP scenarioA 1)
          (250 + Real.sqrt 50000)).point_on_the_ellipse
          (three_point_cosine (getP scenarioA 0) (getP scenarioA 1)
            (getP scenarioA ((1 + 1) % scenarioA.length))) 1)
        (getP scenarioA 0) (getP scenarioA 1)) := by
  have h1 : three_point_cosine (getP scenarioA 1) (getP scenarioA 0)
      (getP scenarioA ((0 + 1) % scenarioA.length)) = 1 :=
    tpc_self (getP scenarioA 0) (getP scenarioA 1) (by rw [SA_dist01]; exact SA_s1_pos)
  exact not_lt.mpr (le_trans (three_point_cosine_le_one _ _ _) (le_of_eq h1.symm))

theorem SA_br2 :
    three_point_cosine (getP scenarioA 2) (getP scenarioA 0)
        (getP scenarioA ((0 + 1) % scenarioA.length)) <
      three_point_cosine
        ((Ellipse.mk' (getP scenarioA 0) (getP scenarioA 2)
          (250 + Real.sqrt 50000 + Real.sqrt 100000)).point_on_the_ellipse
          (three_point_cosine (getP scenarioA 0) (getP scenarioA 2)
            (getP scenarioA ((2 + 1) % scenarioA.length))) 1)
        (getP scenarioA 0) (getP scenarioA 2) := by
  have hB : three_point_cosine (getP scenarioA 0) (getP scenarioA 2)
      (getP scenarioA ((2 + 1) % scenarioA.length)) = 1 :=
    tpc_self (getP scenarioA 2) (getP scenarioA 0) (by rw [SA_dist20]; exact SA_s1_pos)
  rw [hB, cosBrel_eq_one (getP scenarioA 0) (getP scenarioA 2)
    (250 + Real.sqrt 50000 + Real.sqrt 100000)
    (by rw [SA_dist02]; exact SA_s1_pos)
    (by rw [SA_dist02]; linarith [SA_s2_pos]), SA_cos201]
  norm_num

theorem SA_br3 :
    ¬ (three_point_cosine (getP scenarioA 2) (getP scenarioA 1)
        (getP scenarioA ((1 + 1) % scenarioA.length)) <
      three_point_cosine
        ((Ellipse.mk' (getP scenarioA 1) (getP scenarioA 2)
          (250 + Real.sqrt 100000)).point_on_the_ellipse
          (three_point_cosine (getP scenarioA 1) (getP scenarioA 2)
            (getP scenarioA ((2 + 1) % scenarioA.length))) 1)
        (getP scenarioA 1) (getP scenarioA 2)) := by
  have h1 : three_point_cosine (getP scenarioA 2) (getP scenarioA 1)
      (getP scenarioA ((1 + 1) % scenarioA.length)) = 1 :=
    tpc_self (getP scenarioA 1) (getP scenarioA 2) (by rw [SA_dist12]; exact SA_s2_pos)
  exact not_lt.mpr (le_trans (three_point_cosine_le_one _ _ _) (le_of_eq h1.symm))

theorem SA_br4 :
    three_point_cosine (getP scenarioA 0) (getP scenarioA 1)
        (getP scenarioA ((1 + 1) % scenarioA.length)) <
      three_point_cosine
        ((Ellipse.mk' (getP scenarioA 1) (getP scenarioA 0)
          (250 + Real.sqrt 100000 + Real.sqrt 50000)).point_on_the_ellipse
          (three_point_cosine (getP scenarioA 1) (getP scenarioA 0)
            (getP scenarioA ((0 + 1) % scenarioA.length))) 1)
        (getP scenarioA 1) (getP scenarioA 0) := by
  have hB : three_point_cosine (getP scenarioA 1) (getP scenarioA 0)
      (getP scenarioA ((0 + 1) % scenarioA.length)) = 1 :=
    tpc_self (getP scenarioA 0) (getP scenarioA 1) (by rw [SA_dist01]; exact SA_s1_pos)
  rw [hB, cosBrel_eq_one (getP scenarioA 1) (getP scenarioA 0)
    (250 + Real.sqrt 100000 + Real.sqrt 50000)
    (by rw [SA_dist10]; exact SA_s1_pos)
    (by rw [SA_dist10]; linarith [SA_s2_pos])]
  exact SA_cos012_lt1

theorem SA_br5 :
    ¬ (three_point_cosine (getP scenarioA 0) (getP scenarioA 2)
        (getP scenarioA ((2 + 1) % scenarioA.length)) <
      three_point_cosine
        ((Ellipse.mk' (getP scenarioA 2) (getP scenarioA 0)
          (250 + Real.sqrt 50000)).point_on_the_ellipse
          (three_point_cosine (getP scenarioA 2) (getP scenarioA 0)
            (getP scenarioA ((0 + 1) % scenarioA.length))) 1)
        (getP scenarioA 2) (getP scenarioA 0)) := by
  have h1 : three_point_cosine (getP scenarioA 0) (getP scenarioA 2)
      (getP scenarioA ((2 + 1) % scenarioA.length)) = 1 :=
    tpc_self (getP scenarioA 2) (getP scenarioA 0) (by rw [SA_dist20]; exact SA_s1_pos)
  exact not_lt.mpr (le_trans (three_point_cosine_le_one _ _ _) (le_of_eq h1.symm))

theorem SA_br6 :
    three_point_cosine (getP scenarioA 1) (getP scenarioA 2)
        (getP scenarioA ((2 + 1) % scenarioA.length)) <
      three_point_cosine
        ((Ellipse.mk' (getP scenarioA 2) (getP scenarioA 1)
          (250 + Real.sqrt 50000 + Real.sqrt 50000)).point_on_the_ellipse
          (three_point_cosine (getP scenarioA 2) (getP scenarioA 1)
            (getP scenarioA ((1 + 1) % scenarioA.length))) 1)
        (getP scenarioA 2) (getP scenarioA 1) := by
  have hB : three_point_cosine (getP scenarioA 2) (getP scenarioA 1)
      (getP scenarioA ((1 + 1) % scenarioA.length)) = 1 :=
    tpc_self (getP scenarioA 1) (getP scenarioA 2) (by rw [SA_dist12]; exact SA_s2_pos)
  rw [hB, cosBrel_eq_one (getP scenarioA 2) (getP scenarioA 1)
    (250 + Real.sqrt 50000 + Real.sqrt 50000)
    (by rw [SA_dist21]; exact SA_s2_pos)
    (by rw [SA_dist21]; exact SA_s2_lt)]
  exact SA_cos120_lt1

theorem SA_step1 (acc : List Fragment) (g : Fragment) :
    Option.map List.length (walkLoop scenarioA 10
      { l := 0, l_next := 1, r := 1, d := 250 + Real.sqrt 50000, A := ((0 : ℝ), (0 : ℝ)) } acc) =
    Option.map List.length (walkLoop scenarioA 9
      { l := 0, l_next := 1, r := 2, d := 250 + Real.sqrt 50000 + Real.sqrt 100000,
        A := ((0 : ℝ), (0 : ℝ)) } (acc ++ [g])) := by
  rw [show (10 : ℕ) = 9 + 1 from rfl, walkLoop_cons scenarioA 9
    { l := 0, l_next := 1, r := 1, d := 250 + Real.sqrt 50000, A := ((0 : ℝ), (0 : ℝ)) } acc
    (by simp [walkDone])]
  refine walkLoop_length_eq scenarioA 9 _ _ _ _ ?_ ?_ ?_ ?_ (by simp)
  · exact (walkStep_fields_B scenarioA 0 1 1 (250 + Real.sqrt 50000) ((0 : ℝ), (0 : ℝ)) SA_br1).1
  · exact (walkStep_fields_B scenarioA 0 1 1 (250 + Real.sqrt 50000) ((0 : ℝ), (0 : ℝ)) SA_br1).2.1
  · exact (walkStep_fields_B scenarioA 0 1 1 (250 + Real.sqrt 50000) ((0 : ℝ), (0 : ℝ)) SA_br1).2.2.1
  · rw [(walkStep_fields_B scenarioA 0 1 1 (250 + Real.sqrt 50000) ((0 : ℝ), (0 : ℝ))
      SA_br1).2.2.2,
      show dist_2_prev scenarioA ((1 + 1) % scenarioA.length) = Real.sqrt 100000 from SA_d2p2]

theorem SA_step2 (acc : List Fragment) (g : Fragment) :
    Option.map List.length (walkLoop scenarioA 9
      { l := 0, l_next := 1, r := 2, d := 250 + Real.sqrt 50000 + Real.sqrt 100000,
        A := ((0 : ℝ), (0 : ℝ)) } acc) =
    Option.map List.length (walkLoop scenarioA 8
      { l := 1, l_next := 1, r := 2, d := 250 + Real.sqrt 100000,
        A := ((0 : ℝ), (0 : ℝ)) } (acc ++ [g])) := by
  rw [show (9 : ℕ) = 8 + 1 from rfl, walkLoop_cons scenarioA 8
    { l := 0, l_next := 1, r := 2, d := 250 + Real.sqrt 50000 + Real.sqrt 100000,
      A := ((0 : ℝ), (0 : ℝ)) } acc (by simp [walkDone])]
  refine walkLoop_length_eq scenarioA 8 _ _ _ _ ?_ ?_ ?_ ?_ (by simp)
  · exact (walkStep_fields_A2 scenarioA 0 1 2 (250 + Real.sqrt 50000 + Real.sqrt 100000)
      ((0 : ℝ), (0 : ℝ)) SA_br2).1
  · exact (walkStep_fields_A2 scenarioA 0 1 2 (250 + Real.sqrt 50000 + Real.sqrt 100000)
      ((0 : ℝ), (0 : ℝ)) SA_br2).2.1
  · exact (walkStep_fields_A2 scenarioA 0 1 2 (250 + Real.sqrt 50000 + Real.sqrt 100000)
      ((0 : ℝ), (0 : ℝ)) SA_br2).2.2.1
  · rw [(walkStep_fields_A2 scenarioA 0 1 2 (250 + Real.sqrt 50000 + Real.sqrt 100000)
      ((0 : ℝ), (0 : ℝ)) SA_br2).2.2.2,
      show dist_2_prev scenarioA ((0 + 1) % scenarioA.length) = Real.sqrt 50000 from SA_d2p1]
    show 250 + Real.sqrt 50000 + Real.sqrt 100000 - Real.sqrt 50000 = 250 + Real.sqrt 100000
    ring

theorem SA_step3 (acc : List Fragment) (g : Fragment) :
    Option.map List.length (walkLoop scenarioA 8
      { l := 1, l_next := 1, r := 2, d := 250 + Real.sqrt 100000,
        A := ((0 : ℝ), (0 : ℝ)) } acc) =
    Option.map List.length (walkLoop scenarioA 7
      { l := 1, l_next := 2, r := 0, d := 250 + Real.sqrt 100000 + Real.sqrt 50000,
        A := ((0 : ℝ), (0 : ℝ)) } (acc ++ [g])) := by
  rw [show (8 : ℕ) = 7 + 1 from rfl, walkLoop_cons scenarioA 7
    { l := 1, l_next := 1, r := 2, d := 250 + Real.sqrt 100000,
      A := ((0 : ℝ), (0 : ℝ)) } acc (by simp [walkDone])]
  refine walkLoop_length_eq scenarioA 7 _ _ _ _ ?_ ?_ ?_ ?_ (by simp)
  · exact (walkStep_fields_B scenarioA 1 1 2 (250 + Real.sqrt 100000)
      ((0 : ℝ), (0 : ℝ)) SA_br3).1
  · exact (walkStep_fields_B scenarioA 1 1 2 (250 + Real.sqrt 100000)
      ((0 : ℝ), (0 : ℝ)) SA_br3).2.1
  · exact (walkStep_fields_B scenarioA 1 1 2 (250 + Real.sqrt 100000)
      ((0 : ℝ), (0 : ℝ)) SA_br3).2.2.1
  · rw [(walkStep_fields_B scenarioA 1 1 2 (250 + Real.sqrt 100000)
      ((0 : ℝ), (0 : ℝ)) SA_br3).2.2.2,
      show dist_2_prev scenarioA ((2 + 1) % scenarioA.length) = Real.sqrt 50000 from SA_d2p0]

theorem SA_step4 (acc : List Fragment) (g : Fragment) :
    Option.map List.length (walkLoop scenarioA 7
      { l := 1, l_next := 2, r := 0, d := 250 + Real.sqrt 100000 + Real.sqrt 50000,
        A := ((0 : ℝ), (0 : ℝ)) } acc) =
    Option.map List.length (walkLoop scenarioA 6
      { l := 2, l_next := 2, r := 0, d := 250 + Real.sqrt 50000,
        A := ((0 : ℝ), (0 : ℝ)) } (acc ++ [g])) := by
  rw [show (7 : ℕ) = 6 + 1 from rfl, walkLoop_cons scenarioA 6
    { l := 1, l_next := 2, r := 0, d := 250 + Real.sqrt 100000 + Real.sqrt 50000,
      A := ((0 : ℝ), (0 : ℝ)) } acc (by simp [walkDone])]
  refine walkLoop_length_eq scenarioA 6 _ _ _ _ ?_ ?_ ?_ ?_ (by simp)
  · exact (walkStep_fields_A2 scenarioA 1 2 0 (250 + Real.sqrt 100000 + Real.sqrt 50000)
      ((0 : ℝ), (0 : ℝ)) SA_br4).1
  · exact (walkStep_fields_A2 scenarioA 1 2 0 (250 + Real.sqrt 100000 + Real.sqrt 50000)
      ((0 : ℝ), (0 : ℝ)) SA_br4).2.1
  · exact (walkStep_fields_A2 scenarioA 1 2 0 (250 + Real.sqrt 100000 + Real.sqrt 50000)
      ((0 : ℝ), (0 : ℝ)) SA_br4).2.2.1
  · rw [(walkStep_fields_A2 scenarioA 1 2 0 (250 + Real.sqrt 100000 + Real.sqrt 50000)
      ((0 : ℝ), (0 : ℝ)) SA_br4).2.2.2,
      show dist_2_prev scenarioA ((1 + 1) % scenarioA.length) = Real.sqrt 100000 from SA_d2p2]
    show 250 + Real.sqrt 100000 + Real.sqrt 50000 - Real.sqrt 100000 = 250 + Real.sqrt 50000
    ring

theorem SA_step5 (acc : List Fragment) (g : Fragment) :
    Option.map List.length (walkLoop scenarioA 6
      { l := 2, l_next := 2, r := 0, d := 250 + Real.sqrt 50000,
        A := ((0 : ℝ), (0 : ℝ)) } acc) =
    Option.map List.length (walkLoop scenarioA 5
      { l := 2, l_next := 0, r := 1, d := 250 + Real.sqrt 50000 + Real.sqrt 50000,
        A := ((0 : ℝ), (0 : ℝ)) } (acc ++ [g])) := by
  rw [show (6 : ℕ) = 5 + 1 from rfl, walkLoop_cons scenarioA 5
    { l := 2, l_next := 2, r := 0, d := 250 + Real.sqrt 50000,
      A := ((0 : ℝ), (0 : ℝ)) } acc (by simp [walkDone])]
  refine walkLoop_length_eq scenarioA 5 _ _ _ _ ?_ ?_ ?_ ?_ (by simp)
  · exact (walkStep_fields_B scenarioA 2 2 0 (250 + Real.sqrt 50000)
      ((0 : ℝ), (0 : ℝ)) SA_br5).1
  · exact (walkStep_fields_B scenarioA 2 2 0 (250 + Real.sqrt 50000)
      ((0 : ℝ), (0 : ℝ)) SA_br5).2.1
  · exact (walkStep_fields_B scenarioA 2 2 0 (250 + Real.sqrt 50000)
      ((0 : ℝ), (0 : ℝ)) SA_br5).2.2.1
  · rw [(walkStep_fields_B scenarioA 2 2 0 (250 + Real.sqrt 50000)
      ((0 : ℝ), (0 : ℝ)) SA_br5).2.2.2,
      show dist_2_prev scenarioA ((0 + 1) % scenarioA.length) = Real.sqrt 50000 from SA_d2p1]

theorem SA_step6 (acc : List Fragment) (g : Fragment) :
    Option.map List.length (walkLoop scenarioA 5
      { l := 2, l_next := 0, r := 1, d := 250 + Real.sqrt 50000 + Real.sqrt 50000,
        A := ((0 : ℝ), (0 : ℝ)) } acc) =
    Option.map List.length (walkLoop scenarioA 4
      { l := 0, l_next := 0, r := 1, d := 250 + Real.sqrt 50000,
        A := ((0 : ℝ), (0 : ℝ)) } (acc ++ [g])) := by
  rw [show (5 : ℕ) = 4 + 1 from rfl, walkLoop_cons scenarioA 4
    { l := 2, l_next := 0, r := 1, d := 250 + Real.sqrt 50000 + Real.sqrt 50000,
      A := ((0 : ℝ), (0 : ℝ)) } acc (by simp [walkDone])]
  refine walkLoop_length_eq scenarioA 4 _ _ _ _ ?_ ?_ ?_ ?_ (by simp)
  · exact (walkStep_fields_A2 scenarioA 2 0 1 (250 + Real.sqrt 50000 + Real.sqrt 50000)
      ((0 : ℝ), (0 : ℝ)) SA_br6).1
  · exact (walkStep_fields_A2 scenarioA 2 0 1 (250 + Real.sqrt 50000 + Real.sqrt 50000)
      ((0 : ℝ), (0 : ℝ)) SA_br6).2.1
  · exact (walkStep_fields_A2 scenarioA 2 0 1 (250 + Real.sqrt 50000 + Real.sqrt 50000)
      ((0 : ℝ), (0 : ℝ)) SA_br6).2.2.1
  · rw [(walkStep_fields_A2 scenarioA 2 0 1 (250 + Real.sqrt 50000 + Real.sqrt 50000)
      ((0 : ℝ), (0 : ℝ)) SA_br6).2.2.2,
      show dist_2_prev scenarioA ((2 + 1) % scenarioA.length) = Real.sqrt 50000 from SA_d2p0]
    show 250 + Real.sqrt 50000 + Real.sqrt 50000 - Real.sqrt 50000 = 250 + Real.sqrt 50000
    ring

/-- C8: on the scenario A input — foci `(400,500)`, `(600,400)`, `(500,700)`
with slack `250` — `draw_with_slack` terminates and returns exactly 6
fragments. -/
theorem C8_scenarioA_six_fragments :
    Option.map List.length (draw_with_slack scenarioA 250 10) = some 6 := by
  unfold draw_with_slack
  rw [SA_bootstrap]
  show Option.map List.length (walkLoop scenarioA 10
    { l := 0, l_next := 1, r := 1, d := 250 + Real.sqrt 50000,
      A := ((150 : ℝ) + 3 / 4 * Real.sqrt 50000, (3 : ℝ) / 2 * Real.sqrt 50000) } []) = some 6
  rw [walkLoop_length_eq scenarioA 10
    { l := 0, l_next := 1, r := 1, d := 250 + Real.sqrt 50000,
      A := ((150 : ℝ) + 3 / 4 * Real.sqrt 50000, (3 : ℝ) / 2 * Real.sqrt 50000) }
    { l := 0, l_next := 1, r := 1, d := 250 + Real.sqrt 50000, A := ((0 : ℝ), (0 : ℝ)) }
    [] [] rfl rfl rfl rfl rfl]
  rw [SA_step1 [] anyFragment, SA_step2 _ anyFragment, SA_step3 _ anyFragment,
    SA_step4 _ anyFragment, SA_step5 _ anyFragment, SA_step6 _ anyFragment]
  rw [walkLoop_done scenarioA 4
    { l := 0, l_next := 0, r := 1, d := 250 + Real.sqrt 50000, A := ((0 : ℝ), (0 : ℝ)) }
    _ ⟨rfl, rfl⟩]
  rfl

theorem SA_winSum02 : windowSum scenarioA 0 2 = Real.sqrt 50000 + Real.sqrt 100000 := by
  unfold windowSum
  rw [show (2 + scenarioA.length - 0) % scenarioA.length = 2 from rfl,
    Finset.sum_range_succ, Finset.sum_range_one,
    show (0 + 1 + 0) % scenarioA.length = 1 from rfl,
    show (0 + 1 + 1) % scenarioA.length = 2 from rfl, SA_d2p1, SA_d2p2]

/-- C10 witness: the invariant established by the concrete triangle bootstrap
run (`8 = 4 + windowSum`), preserved by a concrete `r`-advance `walkStep`
(small window), and preserved by a concrete `l`-advance `walkStep` from a
window of size `n - 1` (scenario A's second iteration, where the grow-side
bound does not hold and is not needed). -/
theorem C10_window_invariant_witness :
    ((8 : ℝ) = 4 +
      windowSum [((0 : ℝ), (0 : ℝ)), ((4 : ℝ), (0 : ℝ)), ((0 : ℝ), (3 : ℝ))] 0 1) ∧
    ((walkStep [((0 : ℝ), (0 : ℝ)), ((4 : ℝ), (0 : ℝ)), ((0 : ℝ), (3 : ℝ))]
        { l := 0, l_next := 1, r := 1,
          d := 4 + windowSum [((0 : ℝ), (0 : ℝ)), ((4 : ℝ), (0 : ℝ)), ((0 : ℝ), (3 : ℝ))] 0 1,
          A := ((0 : ℝ), (-3 : ℝ)) }).2.d =
      4 + windowSum [((0 : ℝ), (0 : ℝ)), ((4 : ℝ), (0 : ℝ)), ((0 : ℝ), (3 : ℝ))]
        (walkStep [((0 : ℝ), (0 : ℝ)), ((4 : ℝ), (0 : ℝ)), ((0 : ℝ), (3 : ℝ))]
          { l := 0, l_next := 1, r := 1,
            d := 4 + windowSum [((0 : ℝ), (0 : ℝ)), ((4 : ℝ), (0 : ℝ)), ((0 : ℝ), (3 : ℝ))] 0 1,
            A := ((0 : ℝ), (-3 : ℝ)) }).2.l
        (walkStep [((0 : ℝ), (0 : ℝ)), ((4 : ℝ), (0 : ℝ)), ((0 : ℝ), (3 : ℝ))]
          { l := 0, l_next := 1, r := 1,
            d := 4 + windowSum [((0 : ℝ), (0 : ℝ)), ((4 : ℝ), (0 : ℝ)), ((0 : ℝ), (3 : ℝ))] 0 1,
            A := ((0 : ℝ), (-3 : ℝ)) }).2.r) ∧
    ((walkStep scenarioA
        { l := 0, l_next := 1, r := 2, d := 250 + Real.sqrt 50000 + Real.sqrt 100000,
          A := ((0 : ℝ), (0 : ℝ)) }).2.d =
      250 + windowSum scenarioA
        (walkStep scenarioA
          { l := 0, l_next := 1, r := 2, d := 250 + Real.sqrt 50000 + Real.sqrt 100000,
            A := ((0 : ℝ), (0 : ℝ)) }).2.l
        (walkStep scenarioA
          { l := 0, l_next := 1, r := 2, d := 250 + Real.sqrt 50000 + Real.sqrt 100000,
            A := ((0 : ℝ), (0 : ℝ)) }).2.r) := by
  refine ⟨?_, ?_, ?_⟩
  · exact C10_window_invariant.1
      [((0 : ℝ), (0 : ℝ)), ((4 : ℝ), (0 : ℝ)), ((0 : ℝ), (3 : ℝ))] 4 1 1 8 ((0 : ℝ), (-3 : ℝ))
      (by norm_num) triangle_bootstrap
  · exact C10_window_invariant.2
      [((0 : ℝ), (0 : ℝ)), ((4 : ℝ), (0 : ℝ)), ((0 : ℝ), (3 : ℝ))] 4
      { l := 0, l_next := 1, r := 1,
        d := 4 + windowSum [((0 : ℝ), (0 : ℝ)), ((4 : ℝ), (0 : ℝ)), ((0 : ℝ), (3 : ℝ))] 0 1,
        A := ((0 : ℝ), (-3 : ℝ)) }
      (by norm_num) (by norm_num) (by norm_num) (by norm_num) rfl
  · exact C10_window_invariant.2 scenarioA 250
      { l := 0, l_next := 1, r := 2, d := 250 + Real.sqrt 50000 + Real.sqrt 100000,
        A := ((0 : ℝ), (0 : ℝ)) }
      (by norm_num [scenarioA]) (by norm_num [scenarioA]) (by norm_num [scenarioA])
      (fun hn => absurd SA_br2 hn)
      (by show (250 : ℝ) + Real.sqrt 50000 + Real.sqrt 100000 = 250 + windowSum scenarioA 0 2
          rw [SA_winSum02]
          ring)
